import Mathlib

/-!
Verification of the secure peer-session core of the ultimate-secure-chat
repository: the Diffie-Hellman key-exchange service (diffieHellman.ts),
the hybrid RSA/AES crypto service (crypto.ts) and the WebRTC peer-session
manager (directP2P.ts, current no-ICE revision and the earlier
ICE-buffering revision).

Modelling conventions.
JavaScript byte arrays (Uint8Array / ArrayBuffer) are lists of naturals
below 256.  JavaScript strings are lists of Unicode scalar values; the
binary strings produced by String.fromCharCode are lists of code units,
which for byte input coincide with the bytes themselves.  The platform
primitives the services call (window.btoa / window.atob, TextEncoder /
TextDecoder) are implemented concretely (real base64, real UTF-8).  The
WebCrypto cryptographic primitives (ECDH P-256, AES-256-GCM, RSA-OAEP)
are idealised executable models: ECDH is scalar arithmetic modulo the
actual P-256 group order (the curve group is cyclic of that prime
order, so a point is represented by its discrete logarithm); AES-GCM is
a keystream XOR together with a 16-byte authentication tag obtained
from a polynomial fingerprint of the IV and the ciphertext body in the
prime field ZMod 65537, which detects every single-bit modification;
RSA-OAEP is a seed-keyed masked encoding carrying its randomness.  All
code of the repository itself (the wrapper logic, error handling,
fallbacks, state updates) is translated statement by statement.
-/

/-- Bytes are naturals below 256; this predicate states that a whole
list is made of bytes. -/
def BytesOK (bs : List Nat) : Prop := ∀ b ∈ bs, b < 256

/-- JavaScript strings are modelled as lists of Unicode scalar values. -/
abbrev JStr := List Nat

/-- A scalar value is a code point below 0x110000 outside the surrogate
range; TextEncoder round-trips exactly these. -/
def ValidScalar (c : Nat) : Prop := c < 1114112 ∧ (c < 55296 ∨ 57344 ≤ c)

/-- Validity of a whole modelled string. -/
def ValidJStr (s : JStr) : Prop := ∀ c ∈ s, ValidScalar c

instance (c : Nat) : Decidable (ValidScalar c) := by
  unfold ValidScalar
  infer_instance

instance (s : JStr) : Decidable (ValidJStr s) := by
  unfold ValidJStr
  infer_instance

instance (bs : List Nat) : Decidable (BytesOK bs) := by
  unfold BytesOK
  infer_instance

/-- Base64 alphabet: sextet to character code. -/
def b64char (n : Nat) : Nat :=
  if n < 26 then 65 + n
  else if n < 52 then 71 + n
  else if n < 62 then n - 4
  else if n = 62 then 43
  else 47

/-- Base64 alphabet, reverse direction; `none` on a non-alphabet
character. -/
def b64dec (c : Nat) : Option Nat :=
  if 65 ≤ c ∧ c ≤ 90 then some (c - 65)
  else if 97 ≤ c ∧ c ≤ 122 then some (c - 71)
  else if 48 ≤ c ∧ c ≤ 57 then some (c + 4)
  else if c = 43 then some 62
  else if c = 47 then some 63
  else none

/-- Model of window.btoa on a binary string (list of byte-valued code
units): standard base64 with `=` (code 61) padding. -/
def btoa : List Nat → List Nat
  | [] => []
  | [b1] => [b64char (b1 / 4), b64char (b1 % 4 * 16), 61, 61]
  | [b1, b2] => [b64char (b1 / 4), b64char (b1 % 4 * 16 + b2 / 16), b64char (b2 % 16 * 4), 61]
  | b1 :: b2 :: b3 :: rest =>
      b64char (b1 / 4) :: b64char (b1 % 4 * 16 + b2 / 16) ::
      b64char (b2 % 16 * 4 + b3 / 64) :: b64char (b3 % 64) :: btoa rest

/-- Model of window.atob: decodes base64, `none` models the DOMException
thrown on malformed input. -/
def atob : List Nat → Option (List Nat)
  | [] => some []
  | c1 :: c2 :: c3 :: c4 :: rest =>
    match b64dec c1, b64dec c2 with
    | some s1, some s2 =>
      if c3 = 61 then
        if c4 = 61 ∧ rest = [] then some [s1 * 4 + s2 / 16] else none
      else
        match b64dec c3 with
        | some s3 =>
          if c4 = 61 then
            if rest = [] then some [s1 * 4 + s2 / 16, s2 % 16 * 16 + s3 / 4] else none
          else
            match b64dec c4 with
            | some s4 =>
              (atob rest).map
                (fun bs => (s1 * 4 + s2 / 16) :: (s2 % 16 * 16 + s3 / 4) :: (s3 % 4 * 64 + s4) :: bs)
            | none => none
        | none => none
    | _, _ => none
  | _ => none

/-- UTF-8 encoding of one scalar value (TextEncoder, per character). -/
def utf8EncodeChar (c : Nat) : List Nat :=
  if c < 128 then [c]
  else if c < 2048 then [192 + c / 64, 128 + c % 64]
  else if c < 65536 then [224 + c / 4096, 128 + c / 64 % 64, 128 + c % 64]
  else [240 + c / 262144, 128 + c / 4096 % 64, 128 + c / 64 % 64, 128 + c % 64]

/-- Model of TextEncoder.encode: UTF-8 bytes of the string. -/
def textEncode (s : JStr) : List Nat := (s.map utf8EncodeChar).flatten

/-- Continuation-byte test of the UTF-8 decoder. -/
def utf8Cont (b : Nat) : Prop := 128 ≤ b ∧ b < 192

instance (b : Nat) : Decidable (utf8Cont b) := by
  unfold utf8Cont
  infer_instance

/-- Scalar value of a two-byte UTF-8 sequence. -/
def utf8Val2 (b b2 : Nat) : Nat := (b - 192) * 64 + (b2 - 128)

/-- Scalar value of a three-byte UTF-8 sequence. -/
def utf8Val3 (b b2 b3 : Nat) : Nat := (b - 224) * 4096 + (b2 - 128) * 64 + (b3 - 128)

/-- Scalar value of a four-byte UTF-8 sequence. -/
def utf8Val4 (b b2 b3 b4 : Nat) : Nat :=
  (b - 240) * 262144 + (b2 - 128) * 4096 + (b3 - 128) * 64 + (b4 - 128)

/-- Validity of a two-byte sequence: continuation byte and no overlong
form. -/
def utf8Ok2 (b b2 : Nat) : Prop := utf8Cont b2 ∧ 128 ≤ utf8Val2 b b2

instance (b b2 : Nat) : Decidable (utf8Ok2 b b2) := by
  unfold utf8Ok2
  infer_instance

/-- Validity of a three-byte sequence: continuation bytes, no overlong
form, no surrogate. -/
def utf8Ok3 (b b2 b3 : Nat) : Prop :=
  utf8Cont b2 ∧ utf8Cont b3 ∧ 2048 ≤ utf8Val3 b b2 b3 ∧
    (utf8Val3 b b2 b3 < 55296 ∨ 57344 ≤ utf8Val3 b b2 b3)

instance (b b2 b3 : Nat) : Decidable (utf8Ok3 b b2 b3) := by
  unfold utf8Ok3
  infer_instance

/-- Validity of a four-byte sequence: continuation bytes, no overlong
form, value in range. -/
def utf8Ok4 (b b2 b3 b4 : Nat) : Prop :=
  utf8Cont b2 ∧ utf8Cont b3 ∧ utf8Cont b4 ∧ 65536 ≤ utf8Val4 b b2 b3 b4 ∧
    utf8Val4 b b2 b3 b4 < 1114112

instance (b b2 b3 b4 : Nat) : Decidable (utf8Ok4 b b2 b3 b4) := by
  unfold utf8Ok4
  infer_instance

/-- One step of the UTF-8 decoder: given the lead byte and the stream
behind it, the decoded scalar value and the number of continuation
bytes consumed; `none` on malformed input. -/
def utf8Step (b : Nat) (rest : List Nat) : Option (Nat × Nat) :=
  if b < 128 then some (b, 0)
  else if b < 192 then none
  else if b < 224 then
    match rest with
    | b2 :: _ => if utf8Ok2 b b2 then some (utf8Val2 b b2, 1) else none
    | _ => none
  else if b < 240 then
    match rest with
    | b2 :: b3 :: _ => if utf8Ok3 b b2 b3 then some (utf8Val3 b b2 b3, 2) else none
    | _ => none
  else if b < 248 then
    match rest with
    | b2 :: b3 :: b4 :: _ => if utf8Ok4 b b2 b3 b4 then some (utf8Val4 b b2 b3 b4, 3) else none
    | _ => none
  else none

/-- Strict UTF-8 decoding; `none` on malformed input (overlong forms,
surrogates and out-of-range values are rejected, as TextDecoder flags
them). -/
def utf8Decode : List Nat → Option (List Nat)
  | [] => some []
  | b :: rest =>
    match utf8Step b rest with
    | none => none
    | some (c, k) => (utf8Decode (rest.drop k)).map (c :: ·)
termination_by l => l.length
decreasing_by
  simp only [List.length_drop, List.length_cons]
  omega

/-- Model of new TextDecoder().decode: the real decoder substitutes
U+FFFD on errors instead of throwing; only the successful branch is
exercised by the theorems below. -/
def textDecodeJS (bs : List Nat) : JStr := (utf8Decode bs).getD [65533]

/-- Model of window.crypto.getRandomValues(new Uint8Array(12)): twelve
bytes drawn from an external randomness seed. -/
def getRandomValues12 (seed : Nat) : List Nat :=
  (List.range 12).map (fun i => seed / 256 ^ i % 256)

/-- Little-endian digits of a natural, fixed width. -/
def natBytesN : Nat → Nat → List Nat
  | 0, _ => []
  | k + 1, v => v % 256 :: natBytesN k (v / 256)

/-- Value of a little-endian digit list. -/
def bytesToNat : List Nat → Nat
  | [] => 0
  | b :: t => b + 256 * bytesToNat t

/-- Index-dependent XOR masking of a byte list, used by the idealised
stream-cipher parts of the AES-GCM and RSA-OAEP models. -/
def xorMask (f : Nat → Nat) : List Nat → Nat → List Nat
  | [], _ => []
  | b :: t, i => (b ^^^ f i) :: xorMask f t (i + 1)

/-- Keystream byte of the idealised AES-256-GCM model: a key- and
IV-dependent byte sequence XORed onto the plaintext. -/
def ksByte (key : Nat) (iv : List Nat) (i : Nat) : Nat :=
  (key + bytesToNat iv * 131 + i * 257) % 256

/-- Field-polynomial fingerprint of a byte list over the prime field
ZMod 65537, in the style of the GHASH universal hash: every single-byte
change at any position changes the value. -/
def fpAux : List Nat → ZMod 65537
  | [] => 0
  | b :: t => (b : ZMod 65537) + 256 * fpAux t

instance : Fact (Nat.Prime 65537) := ⟨by norm_num⟩

/-- Authentication-tag value of the idealised AES-GCM: the fingerprint
of IV and ciphertext body, blinded by the key. -/
def gcmTag (key : Nat) (iv body : List Nat) : Nat :=
  ((key : ZMod 65537) + fpAux (iv ++ body)).val

/-- Model of window.crypto.subtle.encrypt with AES-GCM: keystream XOR
followed by a 16-byte authentication tag appended to the ciphertext,
exactly as WebCrypto appends the GCM tag. -/
def gcmEncrypt (key : Nat) (iv msg : List Nat) : List Nat :=
  xorMask (ksByte key iv) msg 0 ++ natBytesN 16 (gcmTag key iv (xorMask (ksByte key iv) msg 0))

/-- Model of window.crypto.subtle.decrypt with AES-GCM: recomputes the
tag over the ciphertext body and rejects (`none`, the OperationError
rejection) on any mismatch. -/
def gcmDecrypt (key : Nat) (iv ct : List Nat) : Option (List Nat) :=
  if ct.length < 16 then none
  else if ct.drop (ct.length - 16) = natBytesN 16 (gcmTag key iv (ct.take (ct.length - 16))) then
    some (xorMask (ksByte key iv) (ct.take (ct.length - 16)) 0)
  else none

/-- Order of the P-256 elliptic-curve group, the prime from the NIST
curve specification. -/
def p256Order : Nat :=
  115792089210356248762697446949407573529996955224135760342422259061068512044369

/-- A P-256 ECDH private key (its scalar). -/
structure DHPrivateKey where
  scalar : Nat
deriving DecidableEq, Repr

/-- A P-256 ECDH public key: the curve group is cyclic of prime order,
so the point is represented by its discrete logarithm with respect to
the base point. -/
structure DHPublicKey where
  scalar : Nat
deriving DecidableEq, Repr

/-- A generated ECDH key pair, as returned by generateDHKeyPair in
diffieHellman.ts. -/
structure DHKeyPair where
  publicKey : DHPublicKey
  privateKey : DHPrivateKey
deriving DecidableEq, Repr

/-- Model of generateDHKeyPair (diffieHellman.ts): WebCrypto draws a
scalar and the public key is the corresponding curve point. -/
def generateDHKeyPair (seed : Nat) : DHKeyPair :=
  { publicKey := ⟨seed % p256Order⟩, privateKey := ⟨seed % p256Order⟩ }

/-- Model of deriveSharedSecret (diffieHellman.ts): ECDH derives the
shared point priv·pub = (priv*pub)·G and WebCrypto turns it into the
256-bit AES-GCM key; the key is represented by the scalar of the shared
point. -/
def deriveSharedSecret (privateKey : DHPrivateKey) (publicKey : DHPublicKey) : Nat :=
  privateKey.scalar * publicKey.scalar % p256Order

/-- Encrypted payloads on the wire: the EncryptedData interface of
diffieHellman.ts, both fields base64 strings. -/
structure EncryptedData where
  ciphertext : JStr
  iv : JStr
deriving DecidableEq, Repr

/-- Error values for the rejections the WebCrypto path can produce
inside the DH service. -/
inductive DHError
  | malformedBase64
  | authFailed
deriving DecidableEq, Repr

/-- Characters of the string returned by the fallback on an undecodable
ciphertext. -/
def decryptionErrorText : JStr :=
  [91, 68, 101, 99, 114, 121, 112, 116, 105, 111, 110, 32, 69, 114, 114, 111, 114, 93]

/-- Model of FallbackDiffieHellman.encrypt (diffieHellman.ts): plain
base64 of the data with a constant IV, the insecure development path. -/
def fallbackDHEncrypt (data : JStr) : EncryptedData :=
  { ciphertext := btoa data,
    iv := btoa [102, 97, 108, 108, 98, 97, 99, 107, 45, 105, 118] }

/-- Model of FallbackDiffieHellman.decrypt (diffieHellman.ts): atob of
the ciphertext, and the literal string [Decryption Error] when atob
throws. -/
def fallbackDHDecrypt (encryptedData : EncryptedData) : JStr :=
  match atob encryptedData.ciphertext with
  | some bs => bs
  | none => decryptionErrorText

/-- Model of encryptWithSharedSecret (diffieHellman.ts, the revision
with the insecure fallback): on the WebCrypto path a fresh 12-byte IV
is drawn, the UTF-8 bytes of the data are AES-GCM encrypted, and both
parts are base64 encoded. -/
def encryptWithSharedSecret (cryptoAvailable : Bool) (sharedSecret : Nat) (data : JStr)
    (ivSeed : Nat) : EncryptedData :=
  if !cryptoAvailable then fallbackDHEncrypt data
  else
    { ciphertext :=
        btoa (gcmEncrypt sharedSecret (getRandomValues12 ivSeed) (textEncode data)),
      iv := btoa (getRandomValues12 ivSeed) }

/-- WebCrypto path of decryptWithSharedSecret: base64 decoding of
ciphertext and IV, AES-GCM decryption, UTF-8 decoding; any rejection is
propagated. -/
def decryptWithSharedSecretCore (sharedSecret : Nat) (encryptedData : EncryptedData) :
    Except DHError JStr :=
  match atob encryptedData.ciphertext, atob encryptedData.iv with
  | some ct, some iv =>
    match gcmDecrypt sharedSecret iv ct with
    | some pt => .ok (textDecodeJS pt)
    | none => .error .authFailed
  | _, _ => .error .malformedBase64

/-- Model of decryptWithSharedSecret (diffieHellman.ts, the revision
with the insecure fallback): the whole WebCrypto path is wrapped in a
try/catch whose catch clause returns FallbackDiffieHellman.decrypt of
the same encrypted data, so the function never rejects. -/
def decryptWithSharedSecret (cryptoAvailable : Bool) (sharedSecret : Nat)
    (encryptedData : EncryptedData) : Except DHError JStr :=
  if !cryptoAvailable then .ok (fallbackDHDecrypt encryptedData)
  else
    match decryptWithSharedSecretCore sharedSecret encryptedData with
    | .ok s => .ok s
    | .error _ => .ok (fallbackDHDecrypt encryptedData)

/-- Single-bit tampering: flip bit p of the byte at index i. -/
def flipBit (bs : List Nat) (i p : Nat) : List Nat :=
  bs.set i (bs.getD i 0 ^^^ 2 ^ p)

/-- An RSA-OAEP-4096 public key; the idealised trapdoor is identified
by the seed of the generated key pair. -/
structure RSAPublicKey where
  pairSeed : Nat
deriving DecidableEq, Repr

/-- An RSA-OAEP-4096 private key of the same pair. -/
structure RSAPrivateKey where
  pairSeed : Nat
deriving DecidableEq, Repr

/-- An RSA key pair as returned by generateKeyPair in crypto.ts. -/
structure KeyPair where
  publicKey : RSAPublicKey
  privateKey : RSAPrivateKey
deriving DecidableEq, Repr

/-- Model of generateKeyPair (crypto.ts) on the WebCrypto path. -/
def generateKeyPair (seed : Nat) : KeyPair :=
  { publicKey := ⟨seed⟩, privateKey := ⟨seed⟩ }

/-- OAEP mask byte of the idealised RSA model, keyed by the pair seed
and the per-encryption randomness. -/
def oaepMaskByte (pairSeed rand i : Nat) : Nat :=
  (pairSeed + rand * 257 + i * 131) % 256

/-- Model of window.crypto.subtle.encrypt with RSA-OAEP: the message is
masked under the recipient key and the OAEP randomness travels inside
the ciphertext, so that only the matching private key unmasks it. -/
def rsaEncrypt (publicKey : RSAPublicKey) (msg : List Nat) (randSeed : Nat) : List Nat :=
  natBytesN 16 (randSeed % 2 ^ 128) ++
    xorMask (oaepMaskByte publicKey.pairSeed (randSeed % 2 ^ 128)) msg 0

/-- Model of window.crypto.subtle.decrypt with RSA-OAEP: recover the
randomness and unmask with the private key. -/
def rsaDecrypt (privateKey : RSAPrivateKey) (ct : List Nat) : Option (List Nat) :=
  if ct.length < 16 then none
  else some (xorMask (oaepMaskByte privateKey.pairSeed (bytesToNat (ct.take 16))) (ct.drop 16) 0)

/-- Model of generateAESKey (crypto.ts): a fresh 256-bit AES-GCM key. -/
def generateAESKey (seed : Nat) : Nat := seed % 2 ^ 256

/-- Model of window.crypto.subtle.importKey of a raw 32-byte AES key;
WebCrypto rejects key data of any other length. -/
def importAesKeyRaw (bs : List Nat) : Option Nat :=
  if bs.length = 32 then some (bytesToNat bs) else none

/-- The EncryptedMessage interface of crypto.ts: all three fields are
base64 strings. -/
structure EncryptedMessage where
  iv : JStr
  ciphertext : JStr
  encryptedKey : JStr
deriving DecidableEq, Repr

/-- Model of FallbackCrypto.encrypt (crypto.ts): plain base64 of the
text with constant iv and key markers. -/
def fallbackCryptoEncrypt (message : JStr) : EncryptedMessage :=
  { iv := btoa [100, 101, 118, 101, 108, 111, 112, 109, 101, 110, 116, 45, 105, 118],
    ciphertext := btoa message,
    encryptedKey := btoa [102, 97, 107, 101, 45, 107, 101, 121] }

/-- Model of FallbackCrypto.decrypt (crypto.ts): atob of the
ciphertext, the literal [Decryption Error] when atob throws. -/
def fallbackCryptoDecrypt (encrypted : EncryptedMessage) : JStr :=
  match atob encrypted.ciphertext with
  | some bs => bs
  | none => decryptionErrorText

/-- Model of encryptMessage (crypto.ts) on the WebCrypto path: a fresh
one-time AES-256-GCM key encrypts the UTF-8 bytes of the message under
a fresh 12-byte IV, the raw AES key is RSA-OAEP encrypted under the
recipient public key, and all three parts are base64 encoded. -/
def encryptMessage (cryptoAvailable : Bool) (message : JStr) (recipientPublicKey : RSAPublicKey)
    (aesSeed ivSeed rsaSeed : Nat) : EncryptedMessage :=
  if !cryptoAvailable then fallbackCryptoEncrypt message
  else
    { iv := btoa (getRandomValues12 ivSeed),
      ciphertext :=
        btoa (gcmEncrypt (generateAESKey aesSeed) (getRandomValues12 ivSeed) (textEncode message)),
      encryptedKey :=
        btoa (rsaEncrypt recipientPublicKey (natBytesN 32 (generateAESKey aesSeed)) rsaSeed) }

/-- WebCrypto path of decryptMessage (crypto.ts): base64 decoding, RSA
decryption of the AES key, raw import, AES-GCM decryption, UTF-8
decoding; `none` models any rejection along the way. -/
def decryptMessageCore (encryptedMsg : EncryptedMessage) (privateKey : RSAPrivateKey) :
    Option JStr := do
  let iv ← atob encryptedMsg.iv
  let ciphertext ← atob encryptedMsg.ciphertext
  let encryptedKey ← atob encryptedMsg.encryptedKey
  let rawKey ← rsaDecrypt privateKey encryptedKey
  let aesKey ← importAesKeyRaw rawKey
  let decrypted ← gcmDecrypt aesKey iv ciphertext
  pure (textDecodeJS decrypted)

/-- Model of decryptMessage (crypto.ts): the WebCrypto path wrapped in
the try/catch whose catch clause returns FallbackCrypto.decrypt, so the
function never rejects. -/
def decryptMessage (cryptoAvailable : Bool) (encryptedMsg : EncryptedMessage)
    (privateKey : RSAPrivateKey) : JStr :=
  if !cryptoAvailable then fallbackCryptoDecrypt encryptedMsg
  else
    match decryptMessageCore encryptedMsg privateKey with
    | some s => s
    | none => fallbackCryptoDecrypt encryptedMsg

/-- Model of exportDHPublicKey (diffieHellman.ts): raw point bytes,
base64 encoded. -/
def exportDHPublicKey (publicKey : DHPublicKey) : JStr :=
  btoa (natBytesN 65 publicKey.scalar)

/-- Model of importDHPublicKey (diffieHellman.ts, fallback revision):
base64 decoding plus raw point import on the WebCrypto path; the catch
clause falls back to the insecure import, so the function is total. -/
def importDHPublicKey (keyData : JStr) : DHPublicKey :=
  match atob keyData with
  | some bs => ⟨bytesToNat bs % p256Order⟩
  | none => ⟨bytesToNat keyData % p256Order⟩

/-- Peer identifiers (the address strings used as map keys by the
service). -/
abbrev PeerId := String

/-- First-match association-list lookup, the model of Map.get. -/
def mget {α : Type} : List (PeerId × α) → PeerId → Option α
  | [], _ => none
  | (k', v) :: t, k => if k' = k then some v else mget t k

/-- Association-list update, the model of Map.set: overwrite in place
or append at the end. -/
def mset {α : Type} : List (PeerId × α) → PeerId → α → List (PeerId × α)
  | [], k, v => [(k, v)]
  | (k', v') :: t, k, v => if k' = k then (k, v) :: t else (k', v') :: mset t k v

/-- Association-list removal, the model of Map.delete. -/
def mdel {α : Type} : List (PeerId × α) → PeerId → List (PeerId × α)
  | [], _ => []
  | (k', v') :: t, k => if k' = k then t else (k', v') :: mdel t k

/-- An ICE server entry of an RTCConfiguration. -/
structure RTCIceServerM where
  urls : String
deriving DecidableEq, Repr

/-- The configuration an RTCPeerConnection is created with. -/
structure RTCConfiguration where
  iceServers : List RTCIceServerM
deriving DecidableEq, Repr

/-- The module-level connection configuration of directP2P.ts (current
revision): an explicitly empty ICE server list. -/
def peerConnectionConfig : RTCConfiguration := ⟨[]⟩

/-- A session description (SDP offer or answer). -/
structure SessionDesc where
  sdpType : String
  sdp : String
deriving DecidableEq, Repr

/-- The observable state of an RTCPeerConnection object owned by the
service. -/
structure RTCPeerConnectionM where
  config : RTCConfiguration
  localDescription : Option SessionDesc
  remoteDescription : Option SessionDesc
deriving DecidableEq, Repr

/-- The observable state of an RTCDataChannel object; readyState keeps
the JavaScript string values (connecting, open, closing, closed). -/
structure RTCDataChannelM where
  label : String
  ordered : Bool
  readyState : String
deriving DecidableEq, Repr

/-- A TEXT payload or the data field of a file payload: either a plain
string or the encrypted structure. -/
inductive StrOrEnc
  | str (s : JStr)
  | enc (e : EncryptedData)
deriving DecidableEq, Repr

/-- Payload of an IMAGE or FILE envelope. -/
structure FilePayload where
  name : String
  size : Nat
  mime : String
  data : StrOrEnc
deriving DecidableEq, Repr

/-- Payload of a KEY_EXCHANGE envelope. -/
structure KeyxPayload where
  publicKey : JStr
deriving DecidableEq, Repr

/-- The payload variants carried by P2P message envelopes. -/
inductive Payload
  | text (v : StrOrEnc)
  | file (v : FilePayload)
  | keyx (v : KeyxPayload)
deriving DecidableEq, Repr

/-- The P2PMessage envelope of directP2P.ts; mtype keeps the JavaScript
string values TEXT, IMAGE, FILE, KEY_EXCHANGE, CALL_REQUEST,
CALL_RESPONSE. -/
structure P2PMessage where
  id : String
  mtype : String
  sender : String
  timestamp : Nat
  payload : Payload
deriving DecidableEq, Repr

/-- The events the service delivers through its callback interface. -/
inductive CallbackEvent
  | onMessage (m : P2PMessage)
  | onConnection (p : PeerId)
  | onDisconnection (p : PeerId)
  | onError
deriving DecidableEq, Repr

/-- Errors thrown across the service boundary. -/
inductive P2PError
  | notInitialized
  | noConnectionFor (ip : PeerId)
deriving DecidableEq, Repr

/-- The mutable fields of the DirectP2PService class (current no-ICE
revision of directP2P.ts). -/
structure P2PState where
  connections : List (PeerId × RTCPeerConnectionM)
  dataChannels : List (PeerId × RTCDataChannelM)
  userId : String
  initialized : Bool
  dhKeyPair : Option DHKeyPair
  sharedSecrets : List (PeerId × Nat)
  pendingOffers : List (PeerId × SessionDesc)
  connectionState : List (PeerId × String)
deriving DecidableEq, Repr

/-- The state of a freshly constructed service. -/
def initialP2PState : P2PState :=
  { connections := [], dataChannels := [], userId := "", initialized := false,
    dhKeyPair := none, sharedSecrets := [], pendingOffers := [], connectionState := [] }

/-- Results of the platform calls an operation awaits (offer and answer
creation by the browser) and of the nondeterministic failure points the
service catches (a rejected encryption, a throwing channel send, a
failing file read), plus the identifier and clock sources. -/
structure PlatformEnv where
  cryptoAvailable : Bool
  offerFor : PeerId → SessionDesc
  answerFor : PeerId → SessionDesc
  msgId : String
  now : Nat
  ivSeed : Nat
  encryptFails : Bool
  channelSendFails : Bool
  fileReadFails : Bool

/-- Model of DirectP2PService.connectToPeer (current revision): guard
on initialization, creation of the connection object with the empty-ICE
configuration and of the ordered messenger data channel, bookkeeping,
offer creation and storage. -/
def connectToPeer (env : PlatformEnv) (s : P2PState) (ipAddress : PeerId) :
    Except P2PError P2PState :=
  if !s.initialized then .error .notInitialized
  else
    .ok { s with
      connections := mset s.connections ipAddress
        { config := peerConnectionConfig,
          localDescription := some (env.offerFor ipAddress),
          remoteDescription := none },
      dataChannels := mset s.dataChannels ipAddress
        { label := "messenger", ordered := true, readyState := "connecting" },
      connectionState := mset s.connectionState ipAddress "connecting",
      pendingOffers := mset s.pendingOffers ipAddress (env.offerFor ipAddress) }

/-- Model of DirectP2PService.handlePeerAnswer (current revision):
fails when no connection was initialized for the address, otherwise
applies the remote description and marks the peer connected. -/
def handlePeerAnswer (s : P2PState) (ipAddress : PeerId) (answer : SessionDesc) :
    Except P2PError P2PState :=
  match mget s.connections ipAddress with
  | none => .error (.noConnectionFor ipAddress)
  | some pc =>
    .ok { s with
      connections := mset s.connections ipAddress { pc with remoteDescription := some answer },
      connectionState := mset s.connectionState ipAddress "connected" }

/-- Model of DirectP2PService.handlePeerOffer (current revision): note
the absence of any initialization guard in the source; a connection
object is created with the empty-ICE configuration, the offer is
applied, an answer is created, applied and returned. -/
def handlePeerOffer (env : PlatformEnv) (s : P2PState) (ipAddress : PeerId)
    (offer : SessionDesc) : Except P2PError (SessionDesc × P2PState) :=
  .ok (env.answerFor ipAddress,
    { s with
      connections := mset s.connections ipAddress
        { config := peerConnectionConfig,
          localDescription := some (env.answerFor ipAddress),
          remoteDescription := some offer },
      connectionState := mset s.connectionState ipAddress "connecting" })

/-- Model of DirectP2PService.sendToPeer: false without an open data
channel, false when the channel send throws, true otherwise; the second
component lists the frames actually handed to the channel. -/
def sendToPeer (env : PlatformEnv) (s : P2PState) (peerId : PeerId) (message : P2PMessage) :
    Bool × List P2PMessage :=
  match mget s.dataChannels peerId with
  | none => (false, [])
  | some dataChannel =>
    if dataChannel.readyState ≠ "open" then (false, [])
    else if env.channelSendFails then (false, [])
    else (true, [message])

/-- Model of DirectP2PService.sendTextMessage (current revision): guard
on initialization, encryption of the payload exactly when a shared
secret is stored for the peer, construction of the TEXT envelope and
handoff to sendToPeer; every failure inside the try block resolves to
false. -/
def sendTextMessage (env : PlatformEnv) (s : P2PState) (peerId : PeerId) (text : JStr) :
    Except P2PError (Bool × P2PState × List P2PMessage) :=
  if !s.initialized then .error .notInitialized
  else
    match mget s.sharedSecrets peerId with
    | some sharedSecret =>
      if env.encryptFails then .ok (false, s, [])
      else
        let message : P2PMessage :=
          { id := env.msgId, mtype := "TEXT", sender := s.userId, timestamp := env.now,
            payload := .text (.enc
              (encryptWithSharedSecret env.cryptoAvailable sharedSecret text env.ivSeed)) }
        .ok ((sendToPeer env s peerId message).1, s, (sendToPeer env s peerId message).2)
    | none =>
      let message : P2PMessage :=
        { id := env.msgId, mtype := "TEXT", sender := s.userId, timestamp := env.now,
          payload := .text (.str text) }
      .ok ((sendToPeer env s peerId message).1, s, (sendToPeer env s peerId message).2)

/-- A File handed to sendFile: name, size, mime type and content
bytes. -/
structure JSFile where
  name : String
  size : Nat
  mime : String
  data : List Nat
deriving DecidableEq, Repr

/-- Model of DirectP2PService.fileToBase64: reads the file as a data
URL and strips the prefix, leaving the base64 of the content bytes. -/
def fileToBase64 (file : JSFile) : JStr := btoa file.data

/-- Model of DirectP2PService.sendFile (current revision): guard on
initialization, file read, optional encryption under the stored shared
secret, envelope construction with IMAGE for image mime types and FILE
otherwise, handoff to sendToPeer; every failure inside the try block
resolves to false. -/
def sendFile (env : PlatformEnv) (s : P2PState) (peerId : PeerId) (file : JSFile) :
    Except P2PError (Bool × P2PState × List P2PMessage) :=
  if !s.initialized then .error .notInitialized
  else if env.fileReadFails then .ok (false, s, [])
  else
    match mget s.sharedSecrets peerId with
    | some sharedSecret =>
      if env.encryptFails then .ok (false, s, [])
      else
        let fileData : StrOrEnc := .enc (encryptWithSharedSecret env.cryptoAvailable
          sharedSecret (fileToBase64 file) env.ivSeed)
        let message : P2PMessage :=
          { id := env.msgId,
            mtype := if "image/".isPrefixOf file.mime then "IMAGE" else "FILE",
            sender := s.userId, timestamp := env.now,
            payload := .file
              { name := file.name, size := file.size, mime := file.mime, data := fileData } }
        .ok ((sendToPeer env s peerId message).1, s, (sendToPeer env s peerId message).2)
    | none =>
      let message : P2PMessage :=
        { id := env.msgId,
          mtype := if "image/".isPrefixOf file.mime then "IMAGE" else "FILE",
          sender := s.userId, timestamp := env.now,
          payload := .file
            { name := file.name, size := file.size, mime := file.mime,
              data := .str (fileToBase64 file) } }
      .ok ((sendToPeer env s peerId message).1, s, (sendToPeer env s peerId message).2)

/-- Model of DirectP2PService.handleMessage (current revision).  A
KEY_EXCHANGE envelope derives and stores the shared secret when the
local DH key pair exists; a TEXT (or IMAGE/FILE) envelope whose payload
has the encrypted shape is decrypted in place when a shared secret is
stored; afterwards every envelope is passed to the onMessage
callback. -/
def handleMessage (cryptoAvailable : Bool) (s : P2PState) (peerId : PeerId)
    (message : P2PMessage) : P2PState × List CallbackEvent :=
  if message.mtype = "KEY_EXCHANGE" then
    match s.dhKeyPair, message.payload with
    | some dhKeyPair, .keyx keyMsg =>
      ({ s with
          sharedSecrets := mset s.sharedSecrets peerId
            (deriveSharedSecret dhKeyPair.privateKey (importDHPublicKey keyMsg.publicKey)) },
        [.onMessage message])
    | _, _ => (s, [.onMessage message])
  else if message.mtype = "TEXT" then
    match message.payload with
    | .text (.enc encPayload) =>
      match mget s.sharedSecrets peerId with
      | some sharedSecret =>
        match decryptWithSharedSecret cryptoAvailable sharedSecret encPayload with
        | .ok decryptedText =>
          (s, [.onMessage { message with payload := .text (.str decryptedText) }])
        | .error _ => (s, [.onError])
      | none => (s, [.onMessage message])
    | _ => (s, [.onMessage message])
  else if message.mtype = "IMAGE" ∨ message.mtype = "FILE" then
    match message.payload with
    | .file filePayload =>
      match filePayload.data with
      | .enc encPayload =>
        match mget s.sharedSecrets peerId with
        | some sharedSecret =>
          match decryptWithSharedSecret cryptoAvailable sharedSecret encPayload with
          | .ok decryptedData =>
            (s, [.onMessage { message with
              payload := .file { filePayload with data := .str decryptedData } }])
          | .error _ => (s, [.onError])
        | none => (s, [.onMessage message])
      | .str _ => (s, [.onMessage message])
    | _ => (s, [.onMessage message])
  else (s, [.onMessage message])

/-- Model of DirectP2PService.isConnectedTo. -/
def isConnectedTo (s : P2PState) (peerId : PeerId) : Bool :=
  match mget s.dataChannels peerId with
  | some dataChannel => dataChannel.readyState = "open"
  | none => false

/-- Model of DirectP2PService.getConnectedPeers: the identifiers whose
data channel is open. -/
def getConnectedPeers (s : P2PState) : List PeerId :=
  (s.dataChannels.filter (fun p => p.2.readyState = "open")).map (·.1)

/-- Model of DirectP2PService.isInitialized. -/
def isInitializedM (s : P2PState) : Bool := s.initialized

/-- Result of disconnect: the successor state together with the data
channel and connection objects on which close() was invoked. -/
structure DisconnectResult where
  state : P2PState
  closedChannels : List RTCDataChannelM
  closedConnections : List RTCPeerConnectionM
deriving DecidableEq, Repr

/-- Model of DirectP2PService.disconnect (current revision): closes
every data channel and connection, clears the five per-peer maps and
marks the service uninitialized; userId and dhKeyPair are kept. -/
def disconnect (s : P2PState) : DisconnectResult :=
  { state :=
      { connections := [], dataChannels := [], userId := s.userId,
        initialized := false, dhKeyPair := s.dhKeyPair, sharedSecrets := [],
        pendingOffers := [], connectionState := [] },
    closedChannels := s.dataChannels.map (·.2),
    closedConnections := s.connections.map (·.2) }

/-- An ICE candidate payload (opaque to the service). -/
abbrev Candidate := String

/-- The observable state of a connection object in the earlier
revision of directP2P.ts, recording the ICE candidates applied to it
through addIceCandidate, in application order. -/
structure LegacyConn where
  applied : List Candidate
deriving DecidableEq, Repr

/-- The per-peer state of the earlier revision of DirectP2PService
that participates in ICE candidate handling: the connections map and
the pendingCandidates buffer. -/
structure LegacyState where
  connections : List (PeerId × LegacyConn)
  pendingCandidates : List (PeerId × List Candidate)
deriving DecidableEq, Repr

/-- Model of DirectP2PService.addIceCandidate (earlier revision): with
no connection object for the address the candidate is appended to the
pendingCandidates buffer and the call returns without error; with a
connection object it is applied to it immediately. -/
def addIceCandidate (s : LegacyState) (ipAddress : PeerId) (candidate : Candidate) :
    LegacyState :=
  match mget s.connections ipAddress with
  | none =>
    { s with
        pendingCandidates := mset s.pendingCandidates ipAddress
          ((mget s.pendingCandidates ipAddress).getD [] ++ [candidate]) }
  | some conn =>
    { s with
        connections := mset s.connections ipAddress
          { conn with applied := conn.applied ++ [candidate] } }

/-- Model of DirectP2PService.connectToPeer (earlier revision),
restricted to its effect on the candidate-handling state: a fresh
connection object is stored for the address; the pendingCandidates
buffer is not consulted. -/
def legacyConnectToPeer (s : LegacyState) (ipAddress : PeerId) : LegacyState :=
  { s with connections := mset s.connections ipAddress { applied := [] } }

/-- Model of DirectP2PService.handlePeerOffer (earlier revision),
restricted to its effect on the candidate-handling state: identical to
the caller side, a fresh connection object is stored and the buffer is
not consulted. -/
def legacyHandlePeerOffer (s : LegacyState) (ipAddress : PeerId) : LegacyState :=
  { s with connections := mset s.connections ipAddress { applied := [] } }

/-- Model of DirectP2PService.handlePeerAnswer (earlier revision):
fails without a connection object; otherwise the remote description is
applied and every buffered candidate for the address is applied to the
connection in buffer order, after which the buffer entry is deleted. -/
def legacyHandlePeerAnswer (s : LegacyState) (ipAddress : PeerId) :
    Except P2PError LegacyState :=
  match mget s.connections ipAddress with
  | none => .error (.noConnectionFor ipAddress)
  | some conn =>
    .ok { connections :=
            mset s.connections ipAddress
              { conn with
                  applied := conn.applied ++ (mget s.pendingCandidates ipAddress).getD [] },
          pendingCandidates := mdel s.pendingCandidates ipAddress }

/-- A concrete platform environment used by the witnesses: crypto is
available and no injected failure occurs. -/
def sampleEnv : PlatformEnv :=
  { cryptoAvailable := true,
    offerFor := fun _ => { sdpType := "offer", sdp := "sdp-offer" },
    answerFor := fun _ => { sdpType := "answer", sdp := "sdp-answer" },
    msgId := "msg-1", now := 0, ivSeed := 7,
    encryptFails := false, channelSendFails := false, fileReadFails := false }

/-- A concrete session description used by the witnesses. -/
def sampleOffer : SessionDesc := { sdpType := "offer", sdp := "remote-sdp" }

/-- A concrete file used by the witnesses. -/
def sampleFile : JSFile := { name := "a.txt", size := 2, mime := "text/plain", data := [104, 105] }

/-! Lemmas about the base64 codec. -/

/-- Decoding inverts the base64 alphabet. -/
theorem b64dec_b64char : ∀ n, n < 64 → b64dec (b64char n) = some n := by decide

/-- No alphabet character is the padding character. -/
theorem b64char_ne_pad : ∀ n, n < 64 → b64char n ≠ 61 := by decide

/-- Base64 decoding inverts encoding on byte input (window.atob after
window.btoa). -/
theorem atob_btoa (bs : List Nat) (h : ∀ b ∈ bs, b < 256) : atob (btoa bs) = some bs := by
  induction bs using btoa.induct with
  | case1 => rfl
  | case2 b1 =>
    have hb1 : b1 < 256 := h b1 (by simp)
    have e1 : b64dec (b64char (b1 / 4)) = some (b1 / 4) := b64dec_b64char _ (by omega)
    have e2 : b64dec (b64char (b1 % 4 * 16)) = some (b1 % 4 * 16) := b64dec_b64char _ (by omega)
    simp [btoa, atob, e1, e2]
    omega
  | case3 b1 b2 =>
    have hb1 : b1 < 256 := h b1 (by simp)
    have hb2 : b2 < 256 := h b2 (by simp)
    have e1 : b64dec (b64char (b1 / 4)) = some (b1 / 4) := b64dec_b64char _ (by omega)
    have e2 : b64dec (b64char (b1 % 4 * 16 + b2 / 16)) = some (b1 % 4 * 16 + b2 / 16) :=
      b64dec_b64char _ (by omega)
    have e3 : b64dec (b64char (b2 % 16 * 4)) = some (b2 % 16 * 4) := b64dec_b64char _ (by omega)
    have ne3 : b64char (b2 % 16 * 4) ≠ 61 := b64char_ne_pad _ (by omega)
    simp [btoa, atob, e1, e2, e3, ne3]
    omega
  | case4 b1 b2 b3 rest ih =>
    have hb1 : b1 < 256 := h b1 (by simp)
    have hb2 : b2 < 256 := h b2 (by simp)
    have hb3 : b3 < 256 := h b3 (by simp)
    have hrest : ∀ b ∈ rest, b < 256 := fun b hb => h b (by simp [hb])
    have e1 : b64dec (b64char (b1 / 4)) = some (b1 / 4) := b64dec_b64char _ (by omega)
    have e2 : b64dec (b64char (b1 % 4 * 16 + b2 / 16)) = some (b1 % 4 * 16 + b2 / 16) :=
      b64dec_b64char _ (by omega)
    have e3 : b64dec (b64char (b2 % 16 * 4 + b3 / 64)) = some (b2 % 16 * 4 + b3 / 64) :=
      b64dec_b64char _ (by omega)
    have e4 : b64dec (b64char (b3 % 64)) = some (b3 % 64) := b64dec_b64char _ (by omega)
    have ne3 : b64char (b2 % 16 * 4 + b3 / 64) ≠ 61 := b64char_ne_pad _ (by omega)
    have ne4 : b64char (b3 % 64) ≠ 61 := b64char_ne_pad _ (by omega)
    simp [btoa, atob, e1, e2, e3, e4, ne3, ne4, ih hrest]
    refine ⟨by omega, by omega, by omega⟩

/-! Lemmas about the UTF-8 codec. -/

/-- Decoding a UTF-8 encoded scalar value from the front of a byte
stream yields the scalar back. -/
theorem utf8Decode_encodeChar (c : Nat) (h1 : c < 1114112) (h2 : c < 55296 ∨ 57344 ≤ c)
    (rest : List Nat) :
    utf8Decode (utf8EncodeChar c ++ rest) = (utf8Decode rest).map (c :: ·) := by
  rcases Nat.lt_or_ge c 128 with hc | hc1
  · have henc : utf8EncodeChar c = [c] := by
      unfold utf8EncodeChar
      rw [if_pos hc]
    have hstep : utf8Step c rest = some (c, 0) := by
      unfold utf8Step
      rw [if_pos hc]
    rw [henc, List.cons_append, List.nil_append, utf8Decode, hstep]
    simp
  rcases Nat.lt_or_ge c 2048 with hc | hc2
  · have henc : utf8EncodeChar c = [192 + c / 64, 128 + c % 64] := by
      unfold utf8EncodeChar
      rw [if_neg (by omega), if_pos hc]
    have hstep : utf8Step (192 + c / 64) ((128 + c % 64) :: rest) = some (c, 1) := by
      unfold utf8Step
      rw [if_neg (by omega), if_neg (by omega), if_pos (by omega)]
      have hok : utf8Ok2 (192 + c / 64) (128 + c % 64) := by
        unfold utf8Ok2 utf8Cont utf8Val2
        omega
      have he : utf8Val2 (192 + c / 64) (128 + c % 64) = c := by
        unfold utf8Val2
        omega
      simp [hok, he]
    rw [henc]
    simp only [List.cons_append, List.nil_append]
    rw [utf8Decode, hstep]
    simp
  rcases Nat.lt_or_ge c 65536 with hc | hc3
  · have henc : utf8EncodeChar c = [224 + c / 4096, 128 + c / 64 % 64, 128 + c % 64] := by
      unfold utf8EncodeChar
      rw [if_neg (by omega), if_neg (by omega), if_pos hc]
    have hstep : utf8Step (224 + c / 4096) ((128 + c / 64 % 64) :: (128 + c % 64) :: rest) =
        some (c, 2) := by
      unfold utf8Step
      rw [if_neg (by omega), if_neg (by omega), if_neg (by omega), if_pos (by omega)]
      have hok : utf8Ok3 (224 + c / 4096) (128 + c / 64 % 64) (128 + c % 64) := by
        unfold utf8Ok3 utf8Cont utf8Val3
        omega
      have he : utf8Val3 (224 + c / 4096) (128 + c / 64 % 64) (128 + c % 64) = c := by
        unfold utf8Val3
        omega
      simp [hok, he]
    rw [henc]
    simp only [List.cons_append, List.nil_append]
    rw [utf8Decode, hstep]
    simp
  · have henc : utf8EncodeChar c =
        [240 + c / 262144, 128 + c / 4096 % 64, 128 + c / 64 % 64, 128 + c % 64] := by
      unfold utf8EncodeChar
      rw [if_neg (by omega), if_neg (by omega), if_neg (by omega)]
    have hstep : utf8Step (240 + c / 262144)
        ((128 + c / 4096 % 64) :: (128 + c / 64 % 64) :: (128 + c % 64) :: rest) =
        some (c, 3) := by
      unfold utf8Step
      rw [if_neg (by omega), if_neg (by omega), if_neg (by omega), if_neg (by omega),
        if_pos (by omega)]
      have hok : utf8Ok4 (240 + c / 262144) (128 + c / 4096 % 64) (128 + c / 64 % 64)
          (128 + c % 64) := by
        unfold utf8Ok4 utf8Cont utf8Val4
        omega
      have he : utf8Val4 (240 + c / 262144) (128 + c / 4096 % 64) (128 + c / 64 % 64)
          (128 + c % 64) = c := by
        unfold utf8Val4
        omega
      simp [hok, he]
    rw [henc]
    simp only [List.cons_append, List.nil_append]
    rw [utf8Decode, hstep]
    simp

/-- TextDecoder inverts TextEncoder on every valid string. -/
theorem utf8Decode_textEncode (s : JStr) (h : ValidJStr s) :
    utf8Decode (textEncode s) = some s := by
  induction s with
  | nil =>
    rw [show textEncode [] = [] from rfl, utf8Decode]
  | cons c t ih =>
    have hc : ValidScalar c := h c (by simp)
    have ht : ValidJStr t := fun x hx => h x (by simp [hx])
    have : textEncode (c :: t) = utf8EncodeChar c ++ textEncode t := by
      simp [textEncode]
    rw [this, utf8Decode_encodeChar c hc.1 hc.2, ih ht]
    rfl

/-- Byte bound for the UTF-8 encoding of one valid scalar. -/
theorem utf8EncodeChar_lt (c : Nat) (h1 : c < 1114112) : ∀ b ∈ utf8EncodeChar c, b < 256 := by
  intro b hb
  unfold utf8EncodeChar at hb
  split at hb
  · simp at hb
    omega
  · split at hb
    · simp at hb
      rcases hb with hb | hb <;> omega
    · split at hb
      · simp at hb
        rcases hb with hb | hb | hb <;> omega
      · simp at hb
        rcases hb with hb | hb | hb | hb <;> omega

/-- Byte bound for the UTF-8 encoding of a valid string. -/
theorem textEncode_bytesOK (s : JStr) (h : ValidJStr s) : BytesOK (textEncode s) := by
  intro b hb
  simp only [textEncode, List.mem_flatten, List.mem_map] at hb
  obtain ⟨l, ⟨c, hc, rfl⟩, hbl⟩ := hb
  exact utf8EncodeChar_lt c (h c hc).1 b hbl

/-! Lemmas about masking, digit lists, the fingerprint and the AES-GCM
model. -/

/-- Masking is an involution. -/
theorem xorMask_xorMask (f : Nat → Nat) (bs : List Nat) (i : Nat) :
    xorMask f (xorMask f bs i) i = bs := by
  induction bs generalizing i with
  | nil => rfl
  | cons b t ih =>
    simp [xorMask, ih, Nat.xor_assoc]

/-- Masking preserves length. -/
theorem xorMask_length (f : Nat → Nat) (bs : List Nat) (i : Nat) :
    (xorMask f bs i).length = bs.length := by
  induction bs generalizing i with
  | nil => rfl
  | cons b t ih => simp [xorMask, ih]

/-- Masking with byte-valued masks preserves byte bounds. -/
theorem xorMask_bytesOK (f : Nat → Nat) (hf : ∀ i, f i < 256) (bs : List Nat)
    (h : BytesOK bs) (i : Nat) : BytesOK (xorMask f bs i) := by
  induction bs generalizing i with
  | nil => intro b hb; simp [xorMask] at hb
  | cons b t ih =>
    intro x hx
    simp only [xorMask, List.mem_cons] at hx
    rcases hx with hx | hx
    · subst hx
      have hb : b < 256 := h b (by simp)
      have := Nat.xor_lt_two_pow (n := 8) hb (hf i)
      simpa using this
    · exact ih (fun y hy => h y (by simp [hy])) (i + 1) x hx

/-- The keystream bytes are byte-valued. -/
theorem ksByte_lt (key : Nat) (iv : List Nat) (i : Nat) : ksByte key iv i < 256 :=
  Nat.mod_lt _ (by omega)

/-- The digits produced by natBytesN are byte-valued. -/
theorem natBytesN_bytesOK (k v : Nat) : BytesOK (natBytesN k v) := by
  induction k generalizing v with
  | zero => intro b hb; simp [natBytesN] at hb
  | succ k ih =>
    intro b hb
    simp only [natBytesN, List.mem_cons] at hb
    rcases hb with hb | hb
    · subst hb
      exact Nat.mod_lt _ (by omega)
    · exact ih (v / 256) b hb

/-- natBytesN produces exactly k digits. -/
theorem natBytesN_length (k v : Nat) : (natBytesN k v).length = k := by
  induction k generalizing v with
  | zero => rfl
  | succ k ih => simp [natBytesN, ih]

/-- bytesToNat inverts natBytesN below the width bound. -/
theorem bytesToNat_natBytesN (k v : Nat) (h : v < 256 ^ k) :
    bytesToNat (natBytesN k v) = v := by
  induction k generalizing v with
  | zero =>
    simp only [natBytesN, bytesToNat]
    simp only [pow_zero, Nat.lt_one_iff] at h
    omega
  | succ k ih =>
    have hd : v / 256 < 256 ^ k := by
      rw [Nat.div_lt_iff_lt_mul (by omega)]
      calc v < 256 ^ (k + 1) := h
        _ = 256 ^ k * 256 := by ring
    simp [natBytesN, bytesToNat, ih _ hd]
    omega

/-- natBytesN is injective below the width bound. -/
theorem natBytesN_inj (k v w : Nat) (hv : v < 256 ^ k) (hw : w < 256 ^ k)
    (h : natBytesN k v = natBytesN k w) : v = w := by
  have := congrArg bytesToNat h
  rwa [bytesToNat_natBytesN k v hv, bytesToNat_natBytesN k w hw] at this

/-- The fingerprint of a list after a single-position update. -/
theorem fpAux_set (l : List Nat) (i x : Nat) (hi : i < l.length) :
    fpAux (l.set i x) = fpAux l + ((x : ZMod 65537) - (l.getD i 0 : ZMod 65537)) * 256 ^ i := by
  induction l generalizing i with
  | nil => simp at hi
  | cons b t ih =>
    cases i with
    | zero =>
      simp [fpAux, List.set]
      ring
    | succ i =>
      have hi2 : i < t.length := by simpa using hi
      simp only [List.set, fpAux, List.getD_cons_succ, ih i hi2]
      ring

/-- Powers of 256 do not vanish in the prime field ZMod 65537. -/
theorem pow256_ne_zero (i : Nat) : (256 : ZMod 65537) ^ i ≠ 0 := by
  apply pow_ne_zero
  decide

/-- Distinct bytes have distinct images in ZMod 65537. -/
theorem byteCast_ne (x y : Nat) (hx : x < 65537) (hy : y < 65537) (h : x ≠ y) :
    (x : ZMod 65537) ≠ (y : ZMod 65537) := by
  intro he
  apply h
  have := congrArg ZMod.val he
  rwa [ZMod.val_natCast_of_lt hx, ZMod.val_natCast_of_lt hy] at this

/-- Changing one byte of the fingerprinted list changes the tag
value. -/
theorem gcmTag_set_ne (key : Nat) (l : List Nat) (i x : Nat)
    (hi : i < l.length) (hx : x < 65537) (hold : l.getD i 0 < 65537)
    (hne : x ≠ l.getD i 0) :
    gcmTag key [] (l.set i x) ≠ gcmTag key [] l := by
  intro he
  unfold gcmTag at he
  simp only [List.nil_append] at he
  have he2 : (key : ZMod 65537) + fpAux (l.set i x) =
      (key : ZMod 65537) + fpAux l := ZMod.val_injective _ he
  rw [fpAux_set _ i x hi] at he2
  have hz : ((x : ZMod 65537) - (l.getD i 0 : ZMod 65537)) * 256 ^ i = 0 := by
    linear_combination he2
  have h1 : ((x : ZMod 65537) - (l.getD i 0 : ZMod 65537)) ≠ 0 := by
    rw [sub_ne_zero]
    exact byteCast_ne x _ hx hold hne
  exact (mul_ne_zero h1 (pow256_ne_zero i)) hz

/-- Flipping a bit always changes a natural number. -/
theorem xor_two_pow_ne (a p : Nat) : a ^^^ 2 ^ p ≠ a := by
  intro h
  have h2 : (a ^^^ 2 ^ p) ^^^ a = 2 ^ p := by
    rw [Nat.xor_comm a (2 ^ p)]
    simp [Nat.xor_assoc]
  rw [h, Nat.xor_self] at h2
  have hpos : 0 < 2 ^ p := Nat.pos_pow_of_pos p (by omega)
  omega

/-- Default-value access of a byte list stays below 256. -/
theorem getD_lt_of_bytesOK (l : List Nat) (h : BytesOK l) (i : Nat) (hi : i < l.length) :
    l.getD i 0 < 256 := by
  rw [List.getD_eq_getElem _ _ hi]
  exact h _ (List.getElem_mem _)

/-- Flipping preserves length. -/
theorem flipBit_length (l : List Nat) (i p : Nat) : (flipBit l i p).length = l.length := by
  unfold flipBit
  exact List.length_set ..

/-- A bit flip inside the left part of an append acts on the left
part. -/
theorem flipBit_append_left (l1 l2 : List Nat) (i p : Nat) (h : i < l1.length) :
    flipBit (l1 ++ l2) i p = flipBit l1 i p ++ l2 := by
  unfold flipBit
  rw [List.getD_append _ _ _ _ h, List.set_append_left _ _ h]

/-- A bit flip inside the right part of an append acts on the right
part. -/
theorem flipBit_append_right (l1 l2 : List Nat) (i p : Nat) (h : l1.length ≤ i) :
    flipBit (l1 ++ l2) i p = l1 ++ flipBit l2 (i - l1.length) p := by
  unfold flipBit
  rw [List.getD_append_right _ _ _ _ h, List.set_append_right _ _ h]

/-- The default-value access of an updated list at the updated
position. -/
theorem getD_set_self (l : List Nat) (j a : Nat) (h : j < l.length) :
    (l.set j a).getD j 0 = a := by
  rw [List.getD_eq_getElem _ _ (by rw [List.length_set]; exact h)]
  simp

/-- A bit flip at a position inside the list changes the list. -/
theorem flipBit_ne (l : List Nat) (j p : Nat) (h : j < l.length) : flipBit l j p ≠ l := by
  intro he
  have h2 := congrArg (fun t => t.getD j 0) he
  simp only [flipBit] at h2
  rw [getD_set_self _ _ _ h] at h2
  exact xor_two_pow_ne _ p h2

/-- Flipping a byte keeps it byte-valued for in-byte bit positions. -/
theorem getD_flip_lt (l : List Nat) (h : BytesOK l) (i p : Nat) (hi : i < l.length)
    (hp : p < 8) : l.getD i 0 ^^^ 2 ^ p < 256 := by
  have hx := getD_lt_of_bytesOK l h i hi
  have hpow : 2 ^ p < 256 := by
    calc 2 ^ p < 2 ^ 8 := Nat.pow_lt_pow_right (by omega) hp
      _ = 256 := by norm_num
  have := Nat.xor_lt_two_pow (n := 8) hx hpow
  simpa using this

/-- The tag value is bounded by the field order. -/
theorem gcmTag_lt (key : Nat) (iv body : List Nat) : gcmTag key iv body < 65537 :=
  ZMod.val_lt _

/-- The tag value fits in 16 bytes. -/
theorem gcmTag_lt_pow (key : Nat) (iv body : List Nat) : gcmTag key iv body < 256 ^ 16 :=
  lt_of_lt_of_le (gcmTag_lt key iv body) (by norm_num)

/-- Bytes of the AES-GCM ciphertext are byte-valued. -/
theorem gcmEncrypt_bytesOK (key : Nat) (iv msg : List Nat) (h : BytesOK msg) :
    BytesOK (gcmEncrypt key iv msg) := by
  intro b hb
  unfold gcmEncrypt at hb
  rcases List.mem_append.mp hb with hb | hb
  · exact xorMask_bytesOK _ (ksByte_lt key iv) msg h 0 b hb
  · exact natBytesN_bytesOK _ _ b hb

/-- Length of the AES-GCM ciphertext: message length plus the 16-byte
tag. -/
theorem gcmEncrypt_length (key : Nat) (iv msg : List Nat) :
    (gcmEncrypt key iv msg).length = msg.length + 16 := by
  unfold gcmEncrypt
  simp [natBytesN_length, xorMask_length]

/-- Body part of a body-and-tag concatenation. -/
theorem take_body (body tag : List Nat) (ht : tag.length = 16) :
    (body ++ tag).take ((body ++ tag).length - 16) = body := by
  rw [List.length_append, ht]
  exact List.take_left' (by omega)

/-- Tag part of a body-and-tag concatenation. -/
theorem drop_tag (body tag : List Nat) (ht : tag.length = 16) :
    (body ++ tag).drop ((body ++ tag).length - 16) = tag := by
  rw [List.length_append, ht]
  exact List.drop_left' (by omega)

/-- AES-GCM decryption inverts encryption under the same key and IV. -/
theorem gcmDecrypt_gcmEncrypt (key : Nat) (iv msg : List Nat) :
    gcmDecrypt key iv (gcmEncrypt key iv msg) = some msg := by
  have henc : gcmEncrypt key iv msg = xorMask (ksByte key iv) msg 0 ++
      natBytesN 16 (gcmTag key iv (xorMask (ksByte key iv) msg 0)) := rfl
  rw [henc]
  unfold gcmDecrypt
  rw [take_body _ _ (natBytesN_length _ _), drop_tag _ _ (natBytesN_length _ _)]
  rw [if_neg (by
    rw [List.length_append, natBytesN_length]
    omega)]
  rw [if_pos rfl, xorMask_xorMask]

/-- AES-GCM decryption rejects whenever the stored tag disagrees with
the recomputed one. -/
theorem gcmDecrypt_mismatch (key : Nat) (iv ct : List Nat) (h : 16 ≤ ct.length)
    (hne : ct.drop (ct.length - 16) ≠ natBytesN 16 (gcmTag key iv (ct.take (ct.length - 16)))) :
    gcmDecrypt key iv ct = none := by
  unfold gcmDecrypt
  rw [if_neg (by omega), if_neg hne]

/-- The identity connecting the tag of an encryption to the fingerprint
of the joint IV-and-body list. -/
theorem gcmTag_concat (key : Nat) (iv body : List Nat) :
    gcmTag key iv body = gcmTag key [] (iv ++ body) := rfl

/-- Changing one byte inside the authenticated material changes the
recomputed tag. -/
theorem gcmTag_concat_set_ne (key : Nat) (l : List Nat) (i p : Nat) (hl : BytesOK l)
    (hi : i < l.length) (hp : p < 8) :
    gcmTag key [] (l.set i (l.getD i 0 ^^^ 2 ^ p)) ≠ gcmTag key [] l := by
  refine gcmTag_set_ne key l i (l.getD i 0 ^^^ 2 ^ p) hi ?_ ?_ ?_
  · have := getD_flip_lt l hl i p hi hp
    omega
  · have := getD_lt_of_bytesOK l hl i hi
    omega
  · exact xor_two_pow_ne _ p

/-- Flipping any single bit of an AES-GCM ciphertext makes decryption
under the same key and IV fail. -/
theorem gcmDecrypt_flip_ct (key : Nat) (iv msg : List Nat) (i p : Nat)
    (hmsg : BytesOK msg) (hiv : BytesOK iv) (hi : i < (gcmEncrypt key iv msg).length)
    (hp : p < 8) :
    gcmDecrypt key iv (flipBit (gcmEncrypt key iv msg) i p) = none := by
  have henc : gcmEncrypt key iv msg = xorMask (ksByte key iv) msg 0 ++
      natBytesN 16 (gcmTag key iv (xorMask (ksByte key iv) msg 0)) := rfl
  have hlen := gcmEncrypt_length key iv msg
  have hbody : (xorMask (ksByte key iv) msg 0).length = msg.length := xorMask_length _ _ _
  have hbodyOK : BytesOK (xorMask (ksByte key iv) msg 0) :=
    xorMask_bytesOK _ (ksByte_lt key iv) msg hmsg 0
  rw [henc] at hi ⊢
  rcases Nat.lt_or_ge i msg.length with hcase | hcase
  · -- the flip lands in the ciphertext body
    rw [flipBit_append_left _ _ _ _ (by omega)]
    apply gcmDecrypt_mismatch
    · rw [List.length_append, flipBit_length, natBytesN_length]
      omega
    · rw [take_body _ _ (natBytesN_length _ _), drop_tag _ _ (natBytesN_length _ _)]
      intro heq
      have hvals : gcmTag key iv (xorMask (ksByte key iv) msg 0) =
          gcmTag key iv (flipBit (xorMask (ksByte key iv) msg 0) i p) :=
        natBytesN_inj 16 _ _ (gcmTag_lt_pow _ _ _) (gcmTag_lt_pow _ _ _) heq
      rw [gcmTag_concat key iv (flipBit _ i p), gcmTag_concat key iv] at hvals
      have hsplit : iv ++ flipBit (xorMask (ksByte key iv) msg 0) i p =
          (iv ++ xorMask (ksByte key iv) msg 0).set (iv.length + i)
            ((iv ++ xorMask (ksByte key iv) msg 0).getD (iv.length + i) 0 ^^^ 2 ^ p) := by
        rw [show (iv ++ xorMask (ksByte key iv) msg 0).set (iv.length + i)
              ((iv ++ xorMask (ksByte key iv) msg 0).getD (iv.length + i) 0 ^^^ 2 ^ p) =
            flipBit (iv ++ xorMask (ksByte key iv) msg 0) (iv.length + i) p from rfl]
        rw [flipBit_append_right _ _ _ _ (by omega)]
        congr 1
        congr 1
        omega
      rw [hsplit] at hvals
      refine gcmTag_concat_set_ne key (iv ++ xorMask (ksByte key iv) msg 0) (iv.length + i) p
        ?_ ?_ hp hvals.symm
      · intro b hb
        rcases List.mem_append.mp hb with hb | hb
        · exact hiv b hb
        · exact hbodyOK b hb
      · rw [List.length_append]
        omega
  · -- the flip lands in the stored tag
    rw [flipBit_append_right _ _ _ _ (by omega)]
    apply gcmDecrypt_mismatch
    · rw [List.length_append, flipBit_length, natBytesN_length]
      omega
    · rw [take_body _ _ (by rw [flipBit_length, natBytesN_length]),
        drop_tag _ _ (by rw [flipBit_length, natBytesN_length])]
      rw [hbody]
      apply flipBit_ne
      rw [natBytesN_length]
      rw [List.length_append, natBytesN_length] at hi
      omega

/-- Flipping any single bit of the IV makes AES-GCM decryption of a
genuine ciphertext fail. -/
theorem gcmDecrypt_flip_iv (key : Nat) (iv msg : List Nat) (j p : Nat)
    (hmsg : BytesOK msg) (hiv : BytesOK iv) (hj : j < iv.length) (hp : p < 8) :
    gcmDecrypt key (flipBit iv j p) (gcmEncrypt key iv msg) = none := by
  have henc : gcmEncrypt key iv msg = xorMask (ksByte key iv) msg 0 ++
      natBytesN 16 (gcmTag key iv (xorMask (ksByte key iv) msg 0)) := rfl
  have hbodyOK : BytesOK (xorMask (ksByte key iv) msg 0) :=
    xorMask_bytesOK _ (ksByte_lt key iv) msg hmsg 0
  rw [henc]
  apply gcmDecrypt_mismatch
  · rw [List.length_append, natBytesN_length]
    omega
  · rw [take_body _ _ (natBytesN_length _ _), drop_tag _ _ (natBytesN_length _ _)]
    intro heq
    have hvals : gcmTag key iv (xorMask (ksByte key iv) msg 0) =
        gcmTag key (flipBit iv j p) (xorMask (ksByte key iv) msg 0) :=
      natBytesN_inj 16 _ _ (gcmTag_lt_pow _ _ _) (gcmTag_lt_pow _ _ _) heq
    rw [gcmTag_concat key (flipBit iv j p), gcmTag_concat key iv] at hvals
    have hsplit : flipBit iv j p ++ xorMask (ksByte key iv) msg 0 =
        (iv ++ xorMask (ksByte key iv) msg 0).set j
          ((iv ++ xorMask (ksByte key iv) msg 0).getD j 0 ^^^ 2 ^ p) := by
      rw [show (iv ++ xorMask (ksByte key iv) msg 0).set j
            ((iv ++ xorMask (ksByte key iv) msg 0).getD j 0 ^^^ 2 ^ p) =
          flipBit (iv ++ xorMask (ksByte key iv) msg 0) j p from rfl]
      rw [flipBit_append_left _ _ _ _ hj]
    rw [hsplit] at hvals
    refine gcmTag_concat_set_ne key (iv ++ xorMask (ksByte key iv) msg 0) j p
      ?_ ?_ hp hvals.symm
    · intro b hb
      rcases List.mem_append.mp hb with hb | hb
      · exact hiv b hb
      · exact hbodyOK b hb
    · rw [List.length_append]
      omega

/-! Lemmas about the key-exchange and hybrid crypto services. -/

/-- The generated IV consists of bytes. -/
theorem getRandomValues12_bytesOK (seed : Nat) : BytesOK (getRandomValues12 seed) := by
  intro b hb
  simp only [getRandomValues12, List.mem_map] at hb
  obtain ⟨i, _, rfl⟩ := hb
  exact Nat.mod_lt _ (by omega)

/-- The generated IV has twelve bytes. -/
theorem getRandomValues12_length (seed : Nat) : (getRandomValues12 seed).length = 12 := by
  simp [getRandomValues12]

/-- Flipping one in-byte bit keeps a byte list byte-valued. -/
theorem flipBit_bytesOK (l : List Nat) (h : BytesOK l) (i p : Nat) (hp : p < 8) :
    BytesOK (flipBit l i p) := by
  intro b hb
  unfold flipBit at hb
  rcases List.mem_or_eq_of_mem_set hb with hb | hb
  · exact h b hb
  · subst hb
    rcases Nat.lt_or_ge i l.length with hi | hi
    · exact getD_flip_lt l h i p hi hp
    · have : l.getD i 0 = 0 := by
        rw [List.getD_eq_default]
        omega
      rw [this]
      have hpow : 2 ^ p < 256 := by
        calc 2 ^ p < 2 ^ 8 := Nat.pow_lt_pow_right (by omega) hp
          _ = 256 := by norm_num
      simpa using hpow

/-- Round trip of the shared-secret encryption on the WebCrypto path:
decryptWithSharedSecret inverts encryptWithSharedSecret for every key,
valid plaintext and IV draw. -/
theorem decryptWithSharedSecret_encrypt (key : Nat) (m : JStr) (hm : ValidJStr m)
    (ivSeed : Nat) :
    decryptWithSharedSecret true key (encryptWithSharedSecret true key m ivSeed) = .ok m := by
  unfold encryptWithSharedSecret decryptWithSharedSecret decryptWithSharedSecretCore
  simp only [Bool.not_true, Bool.false_eq_true, if_false]
  rw [atob_btoa _ (gcmEncrypt_bytesOK _ _ _ (textEncode_bytesOK m hm))]
  rw [atob_btoa _ (getRandomValues12_bytesOK ivSeed)]
  simp only []
  rw [gcmDecrypt_gcmEncrypt]
  simp only []
  unfold textDecodeJS
  rw [utf8Decode_textEncode m hm]
  rfl

/-- On the WebCrypto path, a single-bit flip anywhere in the ciphertext
of a genuine encryption makes the inner WebCrypto decryption reject,
and the surrounding catch clause of decryptWithSharedSecret then
returns the base64 decoding of the tampered ciphertext as if it were
the plaintext. -/
theorem decryptWithSharedSecret_flip_ct (key : Nat) (m : JStr) (hm : ValidJStr m)
    (ivSeed i p : Nat)
    (hi : i < (gcmEncrypt key (getRandomValues12 ivSeed) (textEncode m)).length)
    (hp : p < 8) :
    decryptWithSharedSecretCore key
        { ciphertext := btoa (flipBit (gcmEncrypt key (getRandomValues12 ivSeed)
            (textEncode m)) i p),
          iv := btoa (getRandomValues12 ivSeed) } = .error .authFailed ∧
    decryptWithSharedSecret true key
        { ciphertext := btoa (flipBit (gcmEncrypt key (getRandomValues12 ivSeed)
            (textEncode m)) i p),
          iv := btoa (getRandomValues12 ivSeed) } =
      .ok (flipBit (gcmEncrypt key (getRandomValues12 ivSeed) (textEncode m)) i p) := by
  have hctOK : BytesOK (flipBit (gcmEncrypt key (getRandomValues12 ivSeed) (textEncode m)) i p) :=
    flipBit_bytesOK _ (gcmEncrypt_bytesOK _ _ _ (textEncode_bytesOK m hm)) i p hp
  have hcore : decryptWithSharedSecretCore key
      { ciphertext := btoa (flipBit (gcmEncrypt key (getRandomValues12 ivSeed)
          (textEncode m)) i p),
        iv := btoa (getRandomValues12 ivSeed) } = .error .authFailed := by
    unfold decryptWithSharedSecretCore
    simp only
    rw [atob_btoa _ hctOK, atob_btoa _ (getRandomValues12_bytesOK ivSeed)]
    simp only []
    rw [gcmDecrypt_flip_ct key _ _ i p (textEncode_bytesOK m hm)
      (getRandomValues12_bytesOK ivSeed) hi hp]
  refine ⟨hcore, ?_⟩
  unfold decryptWithSharedSecret
  simp only [Bool.not_true, Bool.false_eq_true, if_false]
  rw [hcore]
  unfold fallbackDHDecrypt
  simp only
  rw [atob_btoa _ hctOK]

/-- On the WebCrypto path, a single-bit flip anywhere in the IV of a
genuine encryption makes the inner WebCrypto decryption reject, and the
catch clause then returns the base64 decoding of the untampered
ciphertext as if it were the plaintext. -/
theorem decryptWithSharedSecret_flip_iv (key : Nat) (m : JStr) (hm : ValidJStr m)
    (ivSeed j p : Nat) (hj : j < 12) (hp : p < 8) :
    decryptWithSharedSecretCore key
        { ciphertext := btoa (gcmEncrypt key (getRandomValues12 ivSeed) (textEncode m)),
          iv := btoa (flipBit (getRandomValues12 ivSeed) j p) } = .error .authFailed ∧
    decryptWithSharedSecret true key
        { ciphertext := btoa (gcmEncrypt key (getRandomValues12 ivSeed) (textEncode m)),
          iv := btoa (flipBit (getRandomValues12 ivSeed) j p) } =
      .ok (gcmEncrypt key (getRandomValues12 ivSeed) (textEncode m)) := by
  have hctOK : BytesOK (gcmEncrypt key (getRandomValues12 ivSeed) (textEncode m)) :=
    gcmEncrypt_bytesOK _ _ _ (textEncode_bytesOK m hm)
  have hivOK : BytesOK (flipBit (getRandomValues12 ivSeed) j p) :=
    flipBit_bytesOK _ (getRandomValues12_bytesOK ivSeed) j p hp
  have hcore : decryptWithSharedSecretCore key
      { ciphertext := btoa (gcmEncrypt key (getRandomValues12 ivSeed) (textEncode m)),
        iv := btoa (flipBit (getRandomValues12 ivSeed) j p) } = .error .authFailed := by
    unfold decryptWithSharedSecretCore
    simp only
    rw [atob_btoa _ hctOK, atob_btoa _ hivOK]
    simp only []
    rw [gcmDecrypt_flip_iv key _ _ j p (textEncode_bytesOK m hm)
      (getRandomValues12_bytesOK ivSeed) (by rw [getRandomValues12_length]; omega) hp]
  refine ⟨hcore, ?_⟩
  unfold decryptWithSharedSecret
  simp only [Bool.not_true, Bool.false_eq_true, if_false]
  rw [hcore]
  unfold fallbackDHDecrypt
  simp only
  rw [atob_btoa _ hctOK]

/-- The mask bytes of the RSA-OAEP model are byte-valued. -/
theorem oaepMaskByte_lt (pairSeed rand i : Nat) : oaepMaskByte pairSeed rand i < 256 :=
  Nat.mod_lt _ (by omega)

/-- The RSA ciphertext consists of bytes whenever the message does. -/
theorem rsaEncrypt_bytesOK (publicKey : RSAPublicKey) (msg : List Nat) (randSeed : Nat)
    (h : BytesOK msg) : BytesOK (rsaEncrypt publicKey msg randSeed) := by
  intro b hb
  unfold rsaEncrypt at hb
  rcases List.mem_append.mp hb with hb | hb
  · exact natBytesN_bytesOK _ _ b hb
  · exact xorMask_bytesOK _ (oaepMaskByte_lt _ _) msg h 0 b hb

/-- RSA-OAEP decryption with the matching private key inverts
encryption. -/
theorem rsaDecrypt_rsaEncrypt (seed : Nat) (msg : List Nat) (randSeed : Nat) :
    rsaDecrypt ⟨seed⟩ (rsaEncrypt ⟨seed⟩ msg randSeed) = some msg := by
  unfold rsaEncrypt rsaDecrypt
  rw [if_neg (by
    rw [List.length_append, natBytesN_length]
    omega)]
  rw [List.take_left' (natBytesN_length _ _), List.drop_left' (natBytesN_length _ _)]
  rw [bytesToNat_natBytesN 16 _ (by
    have : (2 : Nat) ^ 128 = 256 ^ 16 := by norm_num
    rw [← this]
    exact Nat.mod_lt _ (by positivity))]
  simp only
  rw [xorMask_xorMask]

/-- Round trip of the hybrid RSA-plus-AES message encryption of
crypto.ts on the WebCrypto path, for every matching key pair, valid
plaintext and randomness draws. -/
theorem decryptMessage_encryptMessage (seed : Nat) (m : JStr) (hm : ValidJStr m)
    (aesSeed ivSeed rsaSeed : Nat) :
    decryptMessage true
      (encryptMessage true m (generateKeyPair seed).publicKey aesSeed ivSeed rsaSeed)
      (generateKeyPair seed).privateKey = m := by
  have hrawOK : BytesOK (natBytesN 32 (generateAESKey aesSeed)) := natBytesN_bytesOK _ _
  have henc : encryptMessage true m (generateKeyPair seed).publicKey aesSeed ivSeed rsaSeed =
      { iv := btoa (getRandomValues12 ivSeed),
        ciphertext := btoa (gcmEncrypt (generateAESKey aesSeed) (getRandomValues12 ivSeed)
          (textEncode m)),
        encryptedKey := btoa (rsaEncrypt (generateKeyPair seed).publicKey
          (natBytesN 32 (generateAESKey aesSeed)) rsaSeed) } := by
    unfold encryptMessage
    simp only [Bool.not_true, Bool.false_eq_true, if_false]
  have hcore : decryptMessageCore
      { iv := btoa (getRandomValues12 ivSeed),
        ciphertext := btoa (gcmEncrypt (generateAESKey aesSeed) (getRandomValues12 ivSeed)
          (textEncode m)),
        encryptedKey := btoa (rsaEncrypt (generateKeyPair seed).publicKey
          (natBytesN 32 (generateAESKey aesSeed)) rsaSeed) }
      (generateKeyPair seed).privateKey = some m := by
    unfold decryptMessageCore
    rw [atob_btoa _ (getRandomValues12_bytesOK ivSeed)]
    rw [atob_btoa _ (gcmEncrypt_bytesOK _ _ _ (textEncode_bytesOK m hm))]
    rw [atob_btoa _ (rsaEncrypt_bytesOK _ _ _ hrawOK)]
    simp only [Option.bind_eq_bind, Option.some_bind]
    rw [show (generateKeyPair seed).publicKey = ⟨seed⟩ from rfl,
      show (generateKeyPair seed).privateKey = ⟨seed⟩ from rfl]
    rw [rsaDecrypt_rsaEncrypt]
    simp only [Option.bind_eq_bind, Option.some_bind]
    rw [show importAesKeyRaw (natBytesN 32 (generateAESKey aesSeed)) =
        some (generateAESKey aesSeed) by
      unfold importAesKeyRaw
      rw [if_pos (natBytesN_length _ _)]
      rw [bytesToNat_natBytesN 32 _ (by
        have h2 : (2 : Nat) ^ 256 = 256 ^ 32 := by norm_num
        unfold generateAESKey
        rw [← h2]
        exact Nat.mod_lt _ (by positivity))]]
    simp only [Option.bind_eq_bind, Option.some_bind]
    rw [gcmDecrypt_gcmEncrypt]
    simp only [Option.bind_eq_bind, Option.some_bind]
    unfold textDecodeJS
    rw [utf8Decode_textEncode m hm]
    rfl
  rw [henc]
  unfold decryptMessage
  simp only [Bool.not_true, Bool.false_eq_true, if_false]
  rw [hcore]

/-! Lemmas about the association-list maps. -/

/-- Lookup after update at the same key. -/
theorem mget_mset_self {α : Type} (m : List (PeerId × α)) (k : PeerId) (v : α) :
    mget (mset m k v) k = some v := by
  induction m with
  | nil => simp [mset, mget]
  | cons p t ih =>
    by_cases h : p.1 = k
    · simp [mset, mget, h]
    · simp [mset, mget, h, ih]

/-! Claim theorems. -/

/-- C1: for any two freshly generated EC P-256 key pairs A and B,
deriveSharedSecret(A.private, B.public) and
deriveSharedSecret(B.private, A.public) produce the identical AES-GCM
key, and for every plaintext string and every such derived key,
decryptWithSharedSecret inverts encryptWithSharedSecret, the two
derived keys being interchangeable across sides. -/
theorem claimC1_dh_symmetry_roundtrip (sa sb : Nat) :
    deriveSharedSecret (generateDHKeyPair sa).privateKey (generateDHKeyPair sb).publicKey =
      deriveSharedSecret (generateDHKeyPair sb).privateKey (generateDHKeyPair sa).publicKey ∧
    ∀ m : JStr, ValidJStr m → ∀ ivSeed : Nat,
      decryptWithSharedSecret true
          (deriveSharedSecret (generateDHKeyPair sb).privateKey (generateDHKeyPair sa).publicKey)
          (encryptWithSharedSecret true
            (deriveSharedSecret (generateDHKeyPair sa).privateKey
              (generateDHKeyPair sb).publicKey) m ivSeed) = .ok m ∧
      decryptWithSharedSecret true
          (deriveSharedSecret (generateDHKeyPair sa).privateKey (generateDHKeyPair sb).publicKey)
          (encryptWithSharedSecret true
            (deriveSharedSecret (generateDHKeyPair sb).privateKey
              (generateDHKeyPair sa).publicKey) m ivSeed) = .ok m := by
  have hsym : deriveSharedSecret (generateDHKeyPair sa).privateKey
      (generateDHKeyPair sb).publicKey =
      deriveSharedSecret (generateDHKeyPair sb).privateKey (generateDHKeyPair sa).publicKey := by
    unfold deriveSharedSecret generateDHKeyPair
    simp only
    rw [Nat.mul_comm]
  refine ⟨hsym, fun m hm ivSeed => ⟨?_, ?_⟩⟩
  · rw [← hsym]
    exact decryptWithSharedSecret_encrypt _ m hm ivSeed
  · rw [hsym]
    exact decryptWithSharedSecret_encrypt _ m hm ivSeed

/-- Witness for C1 at concrete key pairs and the plaintext "hi". -/
theorem claimC1_witness :
    ValidJStr [104, 105] ∧
    decryptWithSharedSecret true
        (deriveSharedSecret (generateDHKeyPair 22).privateKey (generateDHKeyPair 11).publicKey)
        (encryptWithSharedSecret true
          (deriveSharedSecret (generateDHKeyPair 11).privateKey
            (generateDHKeyPair 22).publicKey) [104, 105] 7) = .ok [104, 105] :=
  ⟨by decide, ((claimC1_dh_symmetry_roundtrip 11 22).2 [104, 105] (by decide) 7).1⟩

/-- C3 counterexample: flipping the lowest bit of the first ciphertext
byte of a genuine encryption of "hi" under key 7 does not make
decryptWithSharedSecret fail; the function returns ok with the base64
decoding of the tampered ciphertext, a wrong plaintext, instead of
surfacing a DecryptionFailed error. -/
theorem claimC3_counterexample :
    decryptWithSharedSecret true 7
        { ciphertext := btoa (flipBit (gcmEncrypt 7 (getRandomValues12 5)
            (textEncode [104, 105])) 0 0),
          iv := btoa (getRandomValues12 5) } =
      .ok (flipBit (gcmEncrypt 7 (getRandomValues12 5) (textEncode [104, 105])) 0 0) ∧
    flipBit (gcmEncrypt 7 (getRandomValues12 5) (textEncode [104, 105])) 0 0 ≠ [104, 105] := by
  refine ⟨rfl, by decide⟩

/-- C3 amended: on the WebCrypto path, flipping any bit of the
ciphertext or of the IV of a genuine encryption makes the inner
WebCrypto AES-GCM decryption reject with an authentication failure,
but decryptWithSharedSecret catches that rejection and resolves with
the insecure fallback value, the base64 decoding of the (tampered)
ciphertext, instead of failing; no error reaches the caller. -/
theorem claimC3_amended (key : Nat) (m : JStr) (hm : ValidJStr m) (ivSeed : Nat) :
    (∀ i p, i < (gcmEncrypt key (getRandomValues12 ivSeed) (textEncode m)).length → p < 8 →
      decryptWithSharedSecretCore key
          { ciphertext := btoa (flipBit (gcmEncrypt key (getRandomValues12 ivSeed)
              (textEncode m)) i p),
            iv := btoa (getRandomValues12 ivSeed) } = .error .authFailed ∧
      decryptWithSharedSecret true key
          { ciphertext := btoa (flipBit (gcmEncrypt key (getRandomValues12 ivSeed)
              (textEncode m)) i p),
            iv := btoa (getRandomValues12 ivSeed) } =
        .ok (flipBit (gcmEncrypt key (getRandomValues12 ivSeed) (textEncode m)) i p)) ∧
    (∀ j p, j < 12 → p < 8 →
      decryptWithSharedSecretCore key
          { ciphertext := btoa (gcmEncrypt key (getRandomValues12 ivSeed) (textEncode m)),
            iv := btoa (flipBit (getRandomValues12 ivSeed) j p) } = .error .authFailed ∧
      decryptWithSharedSecret true key
          { ciphertext := btoa (gcmEncrypt key (getRandomValues12 ivSeed) (textEncode m)),
            iv := btoa (flipBit (getRandomValues12 ivSeed) j p) } =
        .ok (gcmEncrypt key (getRandomValues12 ivSeed) (textEncode m))) :=
  ⟨fun i p hi hp => decryptWithSharedSecret_flip_ct key m hm ivSeed i p hi hp,
   fun j p hj hp => decryptWithSharedSecret_flip_iv key m hm ivSeed j p hj hp⟩

/-- Witness for the amended C3 at a concrete key, plaintext and flip
position. -/
theorem claimC3_amended_witness :
    ValidJStr [104, 105] ∧
    0 < (gcmEncrypt 7 (getRandomValues12 5) (textEncode [104, 105])).length ∧
    decryptWithSharedSecret true 7
        { ciphertext := btoa (flipBit (gcmEncrypt 7 (getRandomValues12 5)
            (textEncode [104, 105])) 0 0),
          iv := btoa (getRandomValues12 5) } =
      .ok (flipBit (gcmEncrypt 7 (getRandomValues12 5) (textEncode [104, 105])) 0 0) :=
  ⟨by decide, by decide,
    ((claimC3_amended 7 [104, 105] (by decide) 5).1 0 0 (by decide) (by decide)).2⟩

/-- C4: for every plaintext string and every RSA-OAEP-4096 key pair,
decryptMessage inverts encryptMessage on the WebCrypto path, for all
draws of the per-message AES key, IV and OAEP randomness. -/
theorem claimC4_hybrid_roundtrip (seed : Nat) (m : JStr) (hm : ValidJStr m)
    (aesSeed ivSeed rsaSeed : Nat) :
    decryptMessage true
      (encryptMessage true m (generateKeyPair seed).publicKey aesSeed ivSeed rsaSeed)
      (generateKeyPair seed).privateKey = m :=
  decryptMessage_encryptMessage seed m hm aesSeed ivSeed rsaSeed

/-- Witness for C4 at a concrete key pair and the plaintext "hi". -/
theorem claimC4_witness :
    ValidJStr [104, 105] ∧
    decryptMessage true
      (encryptMessage true [104, 105] (generateKeyPair 42).publicKey 3 4 5)
      (generateKeyPair 42).privateKey = [104, 105] :=
  ⟨by decide, claimC4_hybrid_roundtrip 42 [104, 105] (by decide) 3 4 5⟩

/-- C2 counterexample: on a concrete initialized state holding a DH
key pair, handleMessage passes the received KEY_EXCHANGE envelope to
the onMessage callback, so KEY_EXCHANGE envelopes are not withheld from
the message callback. -/
theorem claimC2_counterexample :
    (handleMessage true
      { initialP2PState with
          initialized := true
          userId := "A"
          dhKeyPair := some (generateDHKeyPair 11) }
      "B"
      { id := "m1"
        mtype := "KEY_EXCHANGE"
        sender := "B"
        timestamp := 0
        payload := .keyx { publicKey := exportDHPublicKey (generateDHKeyPair 22).publicKey } }).2
    =
    [CallbackEvent.onMessage
      { id := "m1"
        mtype := "KEY_EXCHANGE"
        sender := "B"
        timestamp := 0
        payload := .keyx { publicKey := exportDHPublicKey (generateDHKeyPair 22).publicKey } }] :=
  rfl

/-- C2 amended: a received KEY_EXCHANGE envelope derives and stores the
shared secret for the sending peer (when the local DH key pair exists
and the payload has the key-exchange shape), and the envelope is then
forwarded to the onMessage callback like every other envelope, rather
than being withheld from it. -/
theorem claimC2_amended (ca : Bool) (s : P2PState) (peerId : PeerId) (message : P2PMessage)
    (hkx : message.mtype = "KEY_EXCHANGE") :
    (handleMessage ca s peerId message).2 = [CallbackEvent.onMessage message] ∧
    (∀ kp keyMsg, s.dhKeyPair = some kp → message.payload = .keyx keyMsg →
      mget (handleMessage ca s peerId message).1.sharedSecrets peerId =
        some (deriveSharedSecret kp.privateKey (importDHPublicKey keyMsg.publicKey))) := by
  unfold handleMessage
  rw [if_pos hkx]
  rcases hdh : s.dhKeyPair with _ | kp <;> rcases hp : message.payload with v | v | v <;>
    refine ⟨rfl, ?_⟩ <;> intro kp2 km h1 h2 <;>
    first
    | exact Option.noConfusion h1
    | exact Payload.noConfusion h2
    | · injection h1 with h1e
        injection h2 with h2e
        subst h1e
        subst h2e
        simp only []
        exact mget_mset_self ..

/-- Witness for the amended C2 at a concrete state and envelope. -/
theorem claimC2_amended_witness :
    (handleMessage true
      { initialP2PState with
          initialized := true
          userId := "A"
          dhKeyPair := some (generateDHKeyPair 11) }
      "B"
      { id := "m2"
        mtype := "KEY_EXCHANGE"
        sender := "B"
        timestamp := 1
        payload := .keyx { publicKey := exportDHPublicKey (generateDHKeyPair 22).publicKey } }).2
    =
    [CallbackEvent.onMessage
      { id := "m2"
        mtype := "KEY_EXCHANGE"
        sender := "B"
        timestamp := 1
        payload := .keyx { publicKey := exportDHPublicKey (generateDHKeyPair 22).publicKey } }] :=
  (claimC2_amended true
    { initialP2PState with
        initialized := true
        userId := "A"
        dhKeyPair := some (generateDHKeyPair 11) }
    "B"
    { id := "m2"
      mtype := "KEY_EXCHANGE"
      sender := "B"
      timestamp := 1
      payload := .keyx { publicKey := exportDHPublicKey (generateDHKeyPair 22).publicKey } }
    rfl).1

/-- C5: connectToPeer stores a connection object created with the
empty-ICE-server configuration for every address once the service is
initialized, and handlePeerOffer does the same on the callee side. -/
theorem claimC5_empty_ice_servers (env : PlatformEnv) (s : P2PState) (ip : PeerId)
    (offer : SessionDesc) (h : s.initialized = true) :
    (∃ s2, connectToPeer env s ip = .ok s2 ∧
      ∃ pc, mget s2.connections ip = some pc ∧ pc.config.iceServers = []) ∧
    (∃ ans s3, handlePeerOffer env s ip offer = .ok (ans, s3) ∧
      ∃ pc, mget s3.connections ip = some pc ∧ pc.config.iceServers = []) := by
  constructor
  · unfold connectToPeer
    rw [h]
    exact ⟨_, rfl, _, mget_mset_self .., rfl⟩
  · exact ⟨_, _, rfl, _, mget_mset_self .., rfl⟩

/-- Witness for C5 at a concrete initialized state. -/
theorem claimC5_witness :
    ({ initialP2PState with initialized := true } : P2PState).initialized = true ∧
    (∃ s2, connectToPeer sampleEnv { initialP2PState with initialized := true } "B" = .ok s2 ∧
      ∃ pc, mget s2.connections "B" = some pc ∧ pc.config.iceServers = []) :=
  ⟨rfl, (claimC5_empty_ice_servers sampleEnv
    { initialP2PState with initialized := true } "B" sampleOffer rfl).1⟩

/-- C6 counterexample: handlePeerOffer invoked on the fresh,
uninitialized service does not fail with NotInitialized; it proceeds
and returns an answer. -/
theorem claimC6_counterexample :
    initialP2PState.initialized = false ∧
    (handlePeerOffer sampleEnv initialP2PState "B" sampleOffer).isOk = true :=
  ⟨rfl, rfl⟩

/-- C6 amended: before initialize() has completed, connectToPeer,
sendTextMessage and sendFile fail with the NotInitialized error;
handlePeerAnswer fails too but with the unknown-peer error (since no
connection exists for the address); handlePeerOffer performs no
initialization check and proceeds. -/
theorem claimC6_amended (env : PlatformEnv) (s : P2PState) (ip : PeerId)
    (offer answer : SessionDesc) (text : JStr) (file : JSFile) (h : s.initialized = false) :
    connectToPeer env s ip = .error .notInitialized ∧
    sendTextMessage env s ip text = .error .notInitialized ∧
    sendFile env s ip file = .error .notInitialized ∧
    (mget s.connections ip = none →
      handlePeerAnswer s ip answer = .error (.noConnectionFor ip)) ∧
    (handlePeerOffer env s ip offer).isOk = true := by
  refine ⟨?_, ?_, ?_, ?_, rfl⟩
  · unfold connectToPeer
    rw [h]
    rfl
  · unfold sendTextMessage
    rw [h]
    rfl
  · unfold sendFile
    rw [h]
    rfl
  · intro hc
    unfold handlePeerAnswer
    rw [hc]

/-- Witness for the amended C6 on the fresh service state. -/
theorem claimC6_amended_witness :
    initialP2PState.initialized = false ∧
    connectToPeer sampleEnv initialP2PState "B" = .error .notInitialized :=
  ⟨rfl, (claimC6_amended sampleEnv initialP2PState "B" sampleOffer sampleOffer
    [104, 105] sampleFile rfl).1⟩

/-- Without an open data channel, sendToPeer sends nothing and reports
false. -/
theorem sendToPeer_not_connected (env : PlatformEnv) (s : P2PState) (peerId : PeerId)
    (h : isConnectedTo s peerId = false) (msg : P2PMessage) :
    sendToPeer env s peerId msg = (false, []) := by
  unfold sendToPeer
  unfold isConnectedTo at h
  rcases hdc : mget s.dataChannels peerId with _ | dc
  · simp only []
  · rw [hdc] at h
    simp only [] at h
    simp only []
    rw [if_pos (show dc.readyState ≠ "open" from of_decide_eq_false h)]

/-- With an open data channel and a non-throwing send, sendToPeer hands
the frame to the channel and reports true. -/
theorem sendToPeer_connected (env : PlatformEnv) (s : P2PState) (peerId : PeerId)
    (h : isConnectedTo s peerId = true) (hsend : env.channelSendFails = false)
    (msg : P2PMessage) :
    sendToPeer env s peerId msg = (true, [msg]) := by
  unfold sendToPeer
  unfold isConnectedTo at h
  rcases hdc : mget s.dataChannels peerId with _ | dc
  · rw [hdc] at h
    simp only [] at h
    exact absurd h (by simp)
  · rw [hdc] at h
    simp only [] at h
    simp only []
    rw [if_neg (show ¬ dc.readyState ≠ "open" from fun hne => hne (of_decide_eq_true h))]
    simp only [hsend, Bool.false_eq_true, if_false]

/-- C7: once initialized, sendTextMessage resolves to false, without
throwing, whenever no open data channel exists for the peer; with an
open channel (and no injected platform failure) the sent envelope
carries the encrypted structure exactly when a shared secret is stored
for the peer and the plaintext string otherwise. -/
theorem claimC7_sendTextMessage (env : PlatformEnv) (s : P2PState) (peerId : PeerId)
    (text : JStr) (hinit : s.initialized = true) :
    (isConnectedTo s peerId = false → sendTextMessage env s peerId text = .ok (false, s, [])) ∧
    (isConnectedTo s peerId = true → env.encryptFails = false → env.channelSendFails = false →
      (∀ key, mget s.sharedSecrets peerId = some key →
        sendTextMessage env s peerId text = .ok (true, s,
          [{ id := env.msgId
             mtype := "TEXT"
             sender := s.userId
             timestamp := env.now
             payload := .text (.enc (encryptWithSharedSecret env.cryptoAvailable key text
               env.ivSeed)) }])) ∧
      (mget s.sharedSecrets peerId = none →
        sendTextMessage env s peerId text = .ok (true, s,
          [{ id := env.msgId
             mtype := "TEXT"
             sender := s.userId
             timestamp := env.now
             payload := .text (.str text) }]))) := by
  constructor
  · intro hnc
    unfold sendTextMessage
    rw [hinit]
    simp only [Bool.not_true, Bool.false_eq_true, if_false]
    rcases hss : mget s.sharedSecrets peerId with _ | key
    · simp only [sendToPeer_not_connected env s peerId hnc]
    · cases henc : env.encryptFails
      · simp only [Bool.false_eq_true, if_false, sendToPeer_not_connected env s peerId hnc]
      · simp only [if_true]
  · intro hco henc hsend
    constructor
    · intro key hss
      unfold sendTextMessage
      rw [hinit]
      simp only [Bool.not_true, Bool.false_eq_true, if_false]
      rw [hss]
      simp only [henc, Bool.false_eq_true, if_false,
        sendToPeer_connected env s peerId hco hsend]
    · intro hss
      unfold sendTextMessage
      rw [hinit]
      simp only [Bool.not_true, Bool.false_eq_true, if_false]
      rw [hss]
      simp only [sendToPeer_connected env s peerId hco hsend]

/-- Witness for C7 on the fresh initialized state, which has no open
channel: the send resolves to false. -/
theorem claimC7_witness :
    ({ initialP2PState with initialized := true } : P2PState).initialized = true ∧
    isConnectedTo { initialP2PState with initialized := true } "B" = false ∧
    sendTextMessage sampleEnv { initialP2PState with initialized := true } "B" [104, 105] =
      .ok (false, { initialP2PState with initialized := true }, []) :=
  ⟨rfl, rfl,
    (claimC7_sendTextMessage sampleEnv { initialP2PState with initialized := true } "B"
      [104, 105] rfl).1 rfl⟩

/-- C9: disconnect closes exactly the data channels and connection
objects held in the maps, clears all per-peer state, leaves the service
reporting uninitialized with no connected peers, and a second call is
harmless: it closes nothing and leaves the same cleared state (the
model is a total function, so neither call can throw). -/
theorem claimC9_disconnect (s : P2PState) :
    (disconnect s).closedChannels = s.dataChannels.map (·.2) ∧
    (disconnect s).closedConnections = s.connections.map (·.2) ∧
    (disconnect s).state.connections = [] ∧
    (disconnect s).state.dataChannels = [] ∧
    (disconnect s).state.sharedSecrets = [] ∧
    (disconnect s).state.pendingOffers = [] ∧
    (disconnect s).state.connectionState = [] ∧
    isInitializedM (disconnect s).state = false ∧
    getConnectedPeers (disconnect s).state = [] ∧
    disconnect (disconnect s).state =
      { state := (disconnect s).state, closedChannels := [], closedConnections := [] } := by
  unfold disconnect isInitializedM getConnectedPeers
  simp

/-- With a throwing channel send, sendToPeer sends nothing and reports
false, whatever the channel state. -/
theorem sendToPeer_send_throws (env : PlatformEnv) (s : P2PState) (peerId : PeerId)
    (h : env.channelSendFails = true) (msg : P2PMessage) :
    sendToPeer env s peerId msg = (false, []) := by
  unfold sendToPeer
  rcases mget s.dataChannels peerId with _ | dc
  · simp only []
  · simp only []
    by_cases hrs : dc.readyState ≠ "open"
    · rw [if_pos hrs]
    · rw [if_neg hrs]
      simp only [h, if_true]

/-- C10: once initialized, sendTextMessage and sendFile resolve (never
reject) under every combination of injected platform failures, the
service state is returned unchanged, and each injected internal
failure, a rejected encryption, an exception thrown by the channel
send, a failing file read, makes the operation resolve to false with
nothing handed to the channel. -/
theorem claimC10_send_never_rejects (env : PlatformEnv) (s : P2PState) (peerId : PeerId)
    (text : JStr) (file : JSFile) (hinit : s.initialized = true) :
    (∃ b frames, sendTextMessage env s peerId text = .ok (b, s, frames)) ∧
    (∃ b frames, sendFile env s peerId file = .ok (b, s, frames)) ∧
    (env.channelSendFails = true →
      sendTextMessage env s peerId text = .ok (false, s, []) ∧
      sendFile env s peerId file = .ok (false, s, [])) ∧
    (∀ key, mget s.sharedSecrets peerId = some key → env.encryptFails = true →
      sendTextMessage env s peerId text = .ok (false, s, []) ∧
      sendFile env s peerId file = .ok (false, s, [])) ∧
    (env.fileReadFails = true → sendFile env s peerId file = .ok (false, s, [])) := by
  refine ⟨?_, ?_, ?_, ?_, ?_⟩
  · unfold sendTextMessage
    rw [hinit]
    simp only [Bool.not_true, Bool.false_eq_true, if_false]
    rcases mget s.sharedSecrets peerId with _ | key
    · exact ⟨_, _, rfl⟩
    · cases env.encryptFails
      · simp only [Bool.false_eq_true, if_false]
        exact ⟨_, _, rfl⟩
      · simp only [if_true]
        exact ⟨_, _, rfl⟩
  · unfold sendFile
    rw [hinit]
    simp only [Bool.not_true, Bool.false_eq_true, if_false]
    cases env.fileReadFails
    · simp only [Bool.false_eq_true, if_false]
      rcases mget s.sharedSecrets peerId with _ | key
      · exact ⟨_, _, rfl⟩
      · cases env.encryptFails
        · simp only [Bool.false_eq_true, if_false]
          exact ⟨_, _, rfl⟩
        · simp only [if_true]
          exact ⟨_, _, rfl⟩
    · simp only [if_true]
      exact ⟨_, _, rfl⟩
  · intro hsend
    constructor
    · unfold sendTextMessage
      rw [hinit]
      simp only [Bool.not_true, Bool.false_eq_true, if_false]
      rcases mget s.sharedSecrets peerId with _ | key
      · simp only [sendToPeer_send_throws env s peerId hsend]
      · cases henc : env.encryptFails
        · simp only [Bool.false_eq_true, if_false, sendToPeer_send_throws env s peerId hsend]
        · simp only [if_true]
    · unfold sendFile
      rw [hinit]
      simp only [Bool.not_true, Bool.false_eq_true, if_false]
      cases env.fileReadFails
      · simp only [Bool.false_eq_true, if_false]
        rcases mget s.sharedSecrets peerId with _ | key
        · simp only [sendToPeer_send_throws env s peerId hsend]
        · cases henc : env.encryptFails
          · simp only [Bool.false_eq_true, if_false, sendToPeer_send_throws env s peerId hsend]
          · simp only [if_true]
      · simp only [if_true]
  · intro key hss henc
    constructor
    · unfold sendTextMessage
      rw [hinit]
      simp only [Bool.not_true, Bool.false_eq_true, if_false]
      rw [hss]
      simp only [henc, if_true]
    · unfold sendFile
      rw [hinit]
      simp only [Bool.not_true, Bool.false_eq_true, if_false]
      cases env.fileReadFails
      · simp only [Bool.false_eq_true, if_false]
        rw [hss]
        simp only [henc, if_true]
      · simp only [if_true]
  · intro hread
    unfold sendFile
    rw [hinit]
    simp only [Bool.not_true, Bool.false_eq_true, if_false, hread, if_true]

/-- Witness for C10 on the fresh initialized state: the send resolves
with the state unchanged, and with an injected throwing channel send it
resolves to false. -/
theorem claimC10_witness :
    ({ initialP2PState with initialized := true } : P2PState).initialized = true ∧
    (∃ b frames, sendTextMessage sampleEnv { initialP2PState with initialized := true } "B"
      [104, 105] = .ok (b, { initialP2PState with initialized := true }, frames)) ∧
    ({ sampleEnv with channelSendFails := true } : PlatformEnv).channelSendFails = true ∧
    sendTextMessage { sampleEnv with channelSendFails := true }
      { initialP2PState with initialized := true } "B" [104, 105] =
      .ok (false, { initialP2PState with initialized := true }, []) :=
  ⟨rfl,
    (claimC10_send_never_rejects sampleEnv { initialP2PState with initialized := true }
      "B" [104, 105] sampleFile rfl).1,
    rfl,
    ((claimC10_send_never_rejects { sampleEnv with channelSendFails := true }
      { initialP2PState with initialized := true } "B" [104, 105] sampleFile
      rfl).2.2.1 rfl).1⟩

/-- C8 counterexample: a candidate delivered before connectToPeer is
buffered, but once connectToPeer creates the connection object the
buffered candidate is not applied to it: the connection records no
applied candidate and the buffer still holds it. -/
theorem claimC8_counterexample :
    mget (legacyConnectToPeer
      (addIceCandidate { connections := [], pendingCandidates := [] } "B" "cand1")
      "B").connections "B" = some { applied := [] } ∧
    mget (legacyConnectToPeer
      (addIceCandidate { connections := [], pendingCandidates := [] } "B" "cand1")
      "B").pendingCandidates "B" = some ["cand1"] :=
  ⟨rfl, rfl⟩

/-- C8 amended: a candidate arriving with no connection object present
is buffered without error at the end of the per-peer queue (order
preserved) and connections are untouched; creating the connection
object (connectToPeer, and likewise handlePeerOffer) does not replay
the buffer; the whole buffered sequence is applied to the connection,
in order, only when handlePeerAnswer processes the answer for that
address, which then clears the buffer. -/
theorem claimC8_amended (s : LegacyState) (ip : PeerId) (c : Candidate) :
    (mget s.connections ip = none →
      (addIceCandidate s ip c).pendingCandidates =
        mset s.pendingCandidates ip ((mget s.pendingCandidates ip).getD [] ++ [c]) ∧
      (addIceCandidate s ip c).connections = s.connections) ∧
    ((legacyConnectToPeer s ip).pendingCandidates = s.pendingCandidates ∧
      mget (legacyConnectToPeer s ip).connections ip = some { applied := [] }) ∧
    ((legacyHandlePeerOffer s ip).pendingCandidates = s.pendingCandidates ∧
      mget (legacyHandlePeerOffer s ip).connections ip = some { applied := [] }) ∧
    (∀ conn, mget s.connections ip = some conn →
      legacyHandlePeerAnswer s ip = .ok
        { connections := mset s.connections ip
            { applied := conn.applied ++ (mget s.pendingCandidates ip).getD [] },
          pendingCandidates := mdel s.pendingCandidates ip }) := by
  refine ⟨?_, ⟨rfl, mget_mset_self ..⟩, ⟨rfl, mget_mset_self ..⟩, ?_⟩
  · intro h
    unfold addIceCandidate
    rw [h]
    exact ⟨rfl, rfl⟩
  · intro conn h
    unfold legacyHandlePeerAnswer
    rw [h]

/-- Witness for the amended C8 at a concrete buffering state. -/
theorem claimC8_amended_witness :
    mget ({ connections := [], pendingCandidates := [] } : LegacyState).connections "B" = none ∧
    (addIceCandidate { connections := [], pendingCandidates := [] } "B"
      "cand1").pendingCandidates = [("B", ["cand1"])] :=
  ⟨rfl, by
    have h := ((claimC8_amended { connections := [], pendingCandidates := [] } "B" "cand1").1
      rfl).1
    simpa using h⟩
